import Mathlib

/-!
Verification development for the header-reconciliation / validation core of the
Digitalyz "Data Alchemist" repository (src/utils/fileParser.ts and the
validation engine in src/utils/validator.ts).

Modelling conventions (shallow embedding of the TypeScript source):
* JavaScript numbers are modelled as exact rationals (ℚ); `Math.round` is
  `jsRound` (half-up rounding, which is JS semantics including negatives).
* JS `null` and `undefined` are collapsed into `Option.none`: the source always
  tests the two together (`=== null || === undefined`) or via truthiness.
* Dynamic (untyped) cell values are the inductive `JsValue`.
* String lowering is ASCII (`toLowerCase` on the header/alternative alphabet).
* `generateId()` (a random fresh diagnostic id) is omitted from the diagnostic
  record: no consumer in the source reads it back.
-/

set_option maxRecDepth 100000

set_option allowUnsafeReducibility true
attribute [local semireducible] Rat.add Rat.sub Rat.mul Rat.inv Rat.div Rat.blt

/-- JS `Math.round`: round half toward +∞. -/
def jsRound (q : ℚ) : ℤ := ⌊q + 1/2⌋

/-- ASCII lowering of one character (codes 65–90 are 'A'–'Z'). -/
def lowerChar (c : Char) : Char :=
  if 65 ≤ c.toNat ∧ c.toNat ≤ 90 then Char.ofNat (c.toNat + 32) else c

/-- Characters kept by the `replace(/[^a-z0-9]/g, '')` step: 'a'–'z' (97–122)
    or '0'–'9' (48–57). -/
def isLowerAlnum (c : Char) : Bool :=
  (97 ≤ c.toNat && c.toNat ≤ 122) || (48 ≤ c.toNat && c.toNat ≤ 57)

/-- `normalize` from `calculateSimilarity`:
    `s.toLowerCase().replace(/[^a-z0-9]/g, '')`. -/
def normalizeStr (s : String) : String :=
  String.mk ((s.data.map lowerChar).filter (fun c => isLowerAlnum c))

/-- JS `s.includes(sub)`: `sub` occurs contiguously in `s`. -/
def jsIncludes (s sub : String) : Bool :=
  s.data.tails.any (fun t => sub.data.isPrefixOf t)

/-- Inner loop of the Levenshtein row computation from `calculateSimilarity`:
    entry i of the new row is
    `min (left+1) (min (up+1) (diag + indicator))`, walking along `s1`. -/
def levRowGo (c2 : Char) : ℕ → List ℕ → ℕ → List Char → List ℕ
  | _, _, _, [] => []
  | _, [], _, _ :: _ => []
  | diag, up :: rest, left, c1 :: cs =>
    let v := min (left + 1) (min (up + 1) (diag + (if c1 = c2 then 0 else 1)))
    v :: levRowGo c2 up rest v cs

/-- One full new matrix row (row index `j`, character `c2 = s2[j-1]`),
    starting from the previous row `prev`. -/
def levRow (c2 : Char) (prev : List ℕ) (j : ℕ) (s1 : List Char) : List ℕ :=
  match prev with
  | [] => [j]
  | diag :: rest => j :: levRowGo c2 diag rest j s1

/-- Row-by-row loop over `s2` (rows j = 1 .. s2.length). -/
def levRowsGo (s1 : List Char) : List Char → ℕ → List ℕ → List ℕ
  | [], _, row => row
  | c2 :: cs2, j, row => levRowsGo s1 cs2 (j + 1) (levRow c2 row (j + 1) s1)

/-- The dynamic-programming Levenshtein distance of `calculateSimilarity`:
    row 0 is `0..s1.length`, and the result is `matrix[s2.length][s1.length]`. -/
def levDist (s1 s2 : List Char) : ℕ :=
  (levRowsGo s1 s2 0 (List.range (s1.length + 1))).getD s1.length 0

/-- `calculateSimilarity` from src/utils/fileParser.ts (lines 36–63). -/
def calculateSimilarity (str1 str2 : String) : ℚ :=
  let s1 := normalizeStr str1
  let s2 := normalizeStr str2
  if s1 = s2 then 1
  else if jsIncludes s1 s2 || jsIncludes s2 s1 then 8/10
  else
    let distance := levDist s1.data s2.data
    1 - (distance : ℚ) / ((max s1.length s2.length : ℕ) : ℚ)

/-- The three entity kinds. -/
inductive DataType
  | clients
  | workers
  | tasks
deriving DecidableEq, Repr

/-- `HEADER_MAPPINGS` from src/utils/fileParser.ts (lines 6–33), in source
    order (object-literal enumeration order). -/
def HEADER_MAPPINGS : DataType → List (String × List String)
  | .clients =>
    [("ClientID", ["client_id", "clientid", "id", "client", "client_identifier"]),
     ("ClientName", ["client_name", "clientname", "name", "company", "organization"]),
     ("PriorityLevel", ["priority_level", "priority", "importance", "urgency"]),
     ("RequestedTaskIDs", ["requested_task_ids", "requested_tasks", "tasks", "task_ids", "taskids"]),
     ("GroupTag", ["group_tag", "group", "category", "segment", "type"]),
     ("AttributesJSON", ["attributes_json", "attributes", "metadata", "properties", "extras"])]
  | .workers =>
    [("WorkerID", ["worker_id", "workerid", "id", "employee_id", "worker"]),
     ("WorkerName", ["worker_name", "workername", "name", "employee_name", "full_name"]),
     ("Skills", ["skills", "skill_set", "competencies", "abilities", "expertise"]),
     ("AvailableSlots", ["available_slots", "availability", "slots", "capacity", "schedule"]),
     ("MaxLoadPerPhase", ["max_load_per_phase", "max_load", "capacity", "workload_limit"]),
     ("WorkerGroup", ["worker_group", "group", "team", "department", "division"]),
     ("QualificationLevel", ["qualification_level", "level", "experience", "seniority", "grade"])]
  | .tasks =>
    [("TaskID", ["task_id", "taskid", "id", "task", "task_identifier"]),
     ("TaskName", ["task_name", "taskname", "name", "title", "description"]),
     ("Category", ["category", "type", "classification", "domain", "area"]),
     ("Duration", ["duration", "time", "hours", "effort", "estimated_duration"]),
     ("RequiredSkills", ["required_skills", "skills", "skill_requirements", "competencies"]),
     ("PreferredPhases", ["preferred_phases", "phases", "timeline", "schedule", "periods"]),
     ("MaxConcurrent", ["max_concurrent", "concurrency", "parallel_limit", "simultaneous"])]

/-- The fuzzy-match inner loop of `mapHeaders` over one header `h` and the
    alternatives list, threading the mutable `(bestMatch, bestScore)` pair:
    update when `score > bestScore && score > 0.6`. -/
def fuzzyFold (h : String) : List String → String × ℚ → String × ℚ
  | [], st => st
  | a :: rest, st =>
    let score := calculateSimilarity h a
    fuzzyFold h rest (if st.2 < score ∧ (6/10 : ℚ) < score then (h, score) else st)

/-- The per-field header scan of `mapHeaders` (lines 75–93): skip claimed
    headers; a direct match (`alternatives.includes(normalized header)`)
    unconditionally sets `(header, 1)` and skips the fuzzy pass for that
    header; otherwise run the fuzzy fold. -/
def pickGo (alts used : List String) : List String → String × ℚ → String × ℚ
  | [], st => st
  | h :: hs, st =>
    if used.contains h then pickGo alts used hs st
    else if alts.contains (normalizeStr h) then pickGo alts used hs (h, 1)
    else pickGo alts used hs (fuzzyFold h alts st)

/-- The complete scan for one canonical field, from the initial
    `bestMatch = ''`, `bestScore = 0` state. -/
def pickHeader (alts used headers : List String) : String × ℚ :=
  pickGo alts used headers ("", 0)

/-- The outer field loop of `mapHeaders`, threading `(result, usedHeaders)`;
    a field claims its best header only if `bestMatch` is truthy (nonempty)
    and `bestScore > 0.6`. -/
def mapHeadersGo (headers : List String) :
    List (String × List String) → List (String × String) × List String →
    List (String × String) × List String
  | [], st => st
  | (field, alts) :: rest, st =>
    let pick := pickHeader alts st.2 headers
    mapHeadersGo headers rest
      (if pick.1 ≠ "" ∧ (6/10 : ℚ) < pick.2
       then (st.1 ++ [(field, pick.1)], st.2 ++ [pick.1])
       else st)

/-- `mapHeaders` from src/utils/fileParser.ts (lines 66–102); the result
    object is modelled as an insertion-ordered association list. -/
def mapHeaders (headers : List String) (dataType : DataType) : List (String × String) :=
  (mapHeadersGo headers (HEADER_MAPPINGS dataType) ([], [])).1

/-- Dynamic JavaScript values as produced by coercion / JSON parsing. -/
inductive JsValue
  | vNull
  | vBool (b : Bool)
  | vNum (q : ℚ)
  | vStr (s : String)
  | vArr (xs : List JsValue)
  | vObj (kvs : List (String × JsValue))

/-- JS strict equality `===` on the primitive cases; distinct array/object
    values are never `===` (reference equality), which is how the validator's
    `Set.has` behaves on freshly parsed row data. -/
def jsEqPrim : JsValue → JsValue → Bool
  | .vNull, .vNull => true
  | .vBool a, .vBool b => a == b
  | .vNum a, .vNum b => a == b
  | .vStr a, .vStr b => a == b
  | _, _ => false

/-- JSON whitespace (space, tab, newline, carriage return). -/
def jsonSkipWs : List Char → List Char
  | c :: cs =>
    if c = ' ' ∨ c = '\t' ∨ c = '\n' ∨ c = '\r' then jsonSkipWs cs else c :: cs
  | [] => []

/-- Leading decimal digits of a character list, as values, plus the rest. -/
def takeDigits : List Char → List ℕ × List Char
  | [] => ([], [])
  | c :: cs =>
    if 48 ≤ c.toNat ∧ c.toNat ≤ 57 then
      let (ds, rest) := takeDigits cs
      ((c.toNat - 48) :: ds, rest)
    else ([], c :: cs)

/-- Value of a digit list read most-significant first. -/
def digitsVal (ds : List ℕ) : ℕ := ds.foldl (fun acc d => 10 * acc + d) 0

/-- Strict JSON number grammar: `-? (0 | [1-9][0-9]*) (. [0-9]+)? ([eE][+-]?[0-9]+)?`,
    evaluated exactly in ℚ. -/
def jsonNum (cs : List Char) : Option (ℚ × List Char) :=
  let (sgn, cs1) : ℚ × List Char :=
    match cs with
    | '-' :: r => (-1, r)
    | _ => (1, cs)
  let intPart : Option (ℕ × List Char) :=
    match cs1 with
    | '0' :: r => some (0, r)
    | c :: r =>
      if 49 ≤ c.toNat ∧ c.toNat ≤ 57 then
        let (ds, rest) := takeDigits r
        some (digitsVal ((c.toNat - 48) :: ds), rest)
      else none
    | [] => none
  match intPart with
  | none => none
  | some (ip, cs2) =>
    let fracPart : Option (ℚ × List Char) :=
      match cs2 with
      | '.' :: r =>
        let (ds, rest) := takeDigits r
        if ds = [] then none else some ((digitsVal ds : ℚ) / (10 : ℚ) ^ ds.length, rest)
      | _ => some (0, cs2)
    match fracPart with
    | none => none
    | some (fp, cs3) =>
      let expPart : Option (ℤ × List Char) :=
        match cs3 with
        | c :: r =>
          if c = 'e' ∨ c = 'E' then
            let (esgn, r1) : ℤ × List Char :=
              match r with
              | '-' :: r2 => (-1, r2)
              | '+' :: r2 => (1, r2)
              | _ => (1, r)
            let (ds, rest) := takeDigits r1
            if ds = [] then none else some (esgn * (digitsVal ds : ℤ), rest)
          else some (0, cs3)
        | [] => some (0, cs3)
      match expPart with
      | none => none
      | some (ex, cs4) =>
        let mant : ℚ := sgn * ((ip : ℚ) + fp)
        let v : ℚ :=
          if 0 ≤ ex then mant * (10 : ℚ) ^ ex.toNat else mant / (10 : ℚ) ^ (-ex).toNat
        some (v, cs4)

/-- Hexadecimal digit value. -/
def hexVal (c : Char) : Option ℕ :=
  if 48 ≤ c.toNat ∧ c.toNat ≤ 57 then some (c.toNat - 48)
  else if 97 ≤ c.toNat ∧ c.toNat ≤ 102 then some (c.toNat - 87)
  else if 65 ≤ c.toNat ∧ c.toNat ≤ 70 then some (c.toNat - 55)
  else none

mutual
/-- Recursive-descent JSON value parser (JS `JSON.parse`), fuel-bounded.
    Returns the value and the unconsumed remainder, or `none` on a syntax
    error (which the source observes as a thrown exception). -/
def jsonVal : ℕ → List Char → Option (JsValue × List Char)
  | 0, _ => none
  | fuel + 1, cs =>
    match jsonSkipWs cs with
    | 'n' :: 'u' :: 'l' :: 'l' :: r => some (.vNull, r)
    | 't' :: 'r' :: 'u' :: 'e' :: r => some (.vBool true, r)
    | 'f' :: 'a' :: 'l' :: 's' :: 'e' :: r => some (.vBool false, r)
    | '"' :: r =>
      match jsonStrChars fuel r with
      | some (l, r2) => some (.vStr (String.mk l), r2)
      | none => none
    | '[' :: r =>
      match jsonSkipWs r with
      | ']' :: r2 => some (.vArr [], r2)
      | _ =>
        match jsonArrElems fuel r with
        | some (xs, r2) => some (.vArr xs, r2)
        | none => none
    | '\x7b' :: r =>
      match jsonSkipWs r with
      | '\x7d' :: r2 => some (.vObj [], r2)
      | _ =>
        match jsonObjMems fuel r with
        | some (ms, r2) => some (.vObj ms, r2)
        | none => none
    | c :: r =>
      if c = '-' ∨ (48 ≤ c.toNat ∧ c.toNat ≤ 57) then
        match jsonNum (c :: r) with
        | some (q, r2) => some (.vNum q, r2)
        | none => none
      else none
    | [] => none

/-- Comma-separated array elements up to the closing bracket. -/
def jsonArrElems : ℕ → List Char → Option (List JsValue × List Char)
  | 0, _ => none
  | fuel + 1, cs =>
    match jsonVal fuel cs with
    | none => none
    | some (v, r) =>
      match jsonSkipWs r with
      | ',' :: r2 =>
        match jsonArrElems fuel r2 with
        | some (xs, r3) => some (v :: xs, r3)
        | none => none
      | ']' :: r2 => some ([v], r2)
      | _ => none

/-- Comma-separated `"key": value` members up to the closing brace. -/
def jsonObjMems : ℕ → List Char → Option (List (String × JsValue) × List Char)
  | 0, _ => none
  | fuel + 1, cs =>
    match jsonSkipWs cs with
    | '"' :: r =>
      match jsonStrChars fuel r with
      | none => none
      | some (k, r2) =>
        match jsonSkipWs r2 with
        | ':' :: r3 =>
          match jsonVal fuel r3 with
          | none => none
          | some (v, r4) =>
            match jsonSkipWs r4 with
            | ',' :: r5 =>
              match jsonObjMems fuel r5 with
              | some (ms, r6) => some ((String.mk k, v) :: ms, r6)
              | none => none
            | '\x7d' :: r5 => some ([(String.mk k, v)], r5)
            | _ => none
        | _ => none
    | _ => none

/-- JSON string body after the opening quote: plain characters (no raw control
    characters) and the escape sequences of the JSON grammar. -/
def jsonStrChars : ℕ → List Char → Option (List Char × List Char)
  | 0, _ => none
  | fuel + 1, cs =>
    match cs with
    | [] => none
    | '"' :: r => some ([], r)
    | '\\' :: e :: r =>
      let dec : Option (Char × List Char) :=
        if e = '"' then some ('"', r)
        else if e = '\\' then some ('\\', r)
        else if e = '/' then some ('/', r)
        else if e = 'b' then some (Char.ofNat 8, r)
        else if e = 'f' then some (Char.ofNat 12, r)
        else if e = 'n' then some ('\n', r)
        else if e = 'r' then some ('\r', r)
        else if e = 't' then some ('\t', r)
        else if e = 'u' then
          match r with
          | a :: b :: c :: d :: r2 =>
            match hexVal a, hexVal b, hexVal c, hexVal d with
            | some ha, some hb, some hc, some hd =>
              some (Char.ofNat (((ha * 16 + hb) * 16 + hc) * 16 + hd), r2)
            | _, _, _, _ => none
          | _ => none
        else none
      match dec with
      | none => none
      | some (c, r2) =>
        match jsonStrChars fuel r2 with
        | some (l, r3) => some (c :: l, r3)
        | none => none
    | c :: r =>
      if c.toNat < 32 then none
      else
        match jsonStrChars fuel r with
        | some (l, r2) => some (c :: l, r2)
        | none => none
end

/-- JS `JSON.parse`: a single JSON value with only whitespace around it.
    The fuel `2 * length + 4` dominates the parser's recursion depth. -/
def jsonParse (s : String) : Option JsValue :=
  match jsonVal (2 * s.length + 4) s.data with
  | some (v, r) => if jsonSkipWs r = [] then some v else none
  | none => none

/-- JS `parseInt(s)` (radix inferred: optional sign, `0x` hex or decimal);
    `none` models NaN. -/
def jsParseInt (s : String) : Option ℤ :=
  let cs := s.data.dropWhile (fun c => c.isWhitespace)
  let (sgn, cs1) : ℤ × List Char :=
    match cs with
    | '-' :: r => (-1, r)
    | '+' :: r => (1, r)
    | _ => (1, cs)
  match cs1 with
  | '0' :: x :: r =>
    if x = 'x' ∨ x = 'X' then
      let hexDigits := r.takeWhile (fun c => (hexVal c).isSome)
      if hexDigits = [] then none
      else some (sgn * (hexDigits.foldl (fun acc c => 16 * acc + ((hexVal c).getD 0)) 0 : ℕ))
    else
      let (ds, _) := takeDigits cs1
      some (sgn * (digitsVal ds : ℕ))
  | _ =>
    let (ds, _) := takeDigits cs1
    if ds = [] then none else some (sgn * (digitsVal ds : ℕ))

/-- JS `parseFloat(s)`: longest valid numeric prefix
    (`sign? digits? (. digits?)? (e sign? digits)?`); `none` models NaN.
    (`Infinity` literals are not modelled; they never arise here.) -/
def jsParseFloat (s : String) : Option ℚ :=
  let cs := s.data.dropWhile (fun c => c.isWhitespace)
  let (sgn, cs1) : ℚ × List Char :=
    match cs with
    | '-' :: r => (-1, r)
    | '+' :: r => (1, r)
    | _ => (1, cs)
  let (ip, cs2) := takeDigits cs1
  let (fp, cs3) : List ℕ × List Char :=
    match cs2 with
    | '.' :: r => takeDigits r
    | _ => ([], cs2)
  if ip = [] ∧ fp = [] then none
  else
    let mant : ℚ := sgn * ((digitsVal ip : ℚ) + (digitsVal fp : ℚ) / (10 : ℚ) ^ fp.length)
    let ex : ℤ :=
      match cs3 with
      | c :: r =>
        if c = 'e' ∨ c = 'E' then
          let (esgn, r1) : ℤ × List Char :=
            match r with
            | '-' :: r2 => (-1, r2)
            | '+' :: r2 => (1, r2)
            | _ => (1, r)
          let (ds, _) := takeDigits r1
          if ds = [] then 0 else esgn * (digitsVal ds : ℕ)
        else 0
      | [] => 0
    some (if 0 ≤ ex then mant * (10 : ℚ) ^ ex.toNat else mant / (10 : ℚ) ^ (-ex).toNat)

/-- Whitespace trimmed by JS `String.prototype.trim` (ASCII subset; the
    exotic Unicode space characters never arise here). -/
def jsWsChar (c : Char) : Bool :=
  c == ' ' || c == '\t' || c == '\n' || c == '\r' || c == '\x0b' || c == '\x0c'

/-- JS `s.trim()` (kernel-computable: list-based). -/
def strTrim (s : String) : String :=
  String.mk (((s.data.dropWhile jsWsChar).reverse.dropWhile jsWsChar).reverse)

/-- JS `s.startsWith(p)` (kernel-computable: list-based). -/
def strStartsWith (s p : String) : Bool := p.data.isPrefixOf s.data

/-- JS `s.endsWith(p)` (kernel-computable: list-based). -/
def strEndsWith (s p : String) : Bool := p.data.isSuffixOf s.data

/-- Split a character list at every occurrence of `sep`. -/
def splitOnChar (sep : Char) : List Char → List (List Char)
  | [] => [[]]
  | c :: cs =>
    match splitOnChar sep cs with
    | [] => [[c]]
    | h :: t => if c = sep then [] :: h :: t else (c :: h) :: t

/-- JS `s.split(sep)` for a one-character separator. -/
def strSplit (s : String) (sep : Char) : List String :=
  (splitOnChar sep s.data).map String.mk

/-- JS `stringValue.slice(1, -1)`: drop the first and last characters. -/
def jsSliceInner (s : String) : String := String.mk (s.data.drop 1).dropLast

/-- The first branch test of `convertValue`:
    `fieldName.includes('Skills') || fieldName.includes('TaskIDs') || fieldName.includes('Phases')`. -/
def fieldIsList (fieldName : String) : Bool :=
  jsIncludes fieldName "Skills" || jsIncludes fieldName "TaskIDs" || jsIncludes fieldName "Phases"

/-- `convertValue` from src/utils/fileParser.ts (lines 105–150).
    Raw cell values arriving from the row parsers are strings or null/undefined,
    so the `unknown` input is modelled as `Option String`
    (`String(value).trim()` is then `raw.trim`).
    `map(parseInt).filter(n => !isNaN(n))` is written as a `filterMap`. -/
def convertValue (value : Option String) (fieldName : String) : JsValue :=
  match value with
  | none => .vNull
  | some raw =>
    if raw = "" then .vNull
    else
      let stringValue := strTrim raw
      if fieldIsList fieldName then
        if strStartsWith stringValue "[" ∧ strEndsWith stringValue "]" then
          match jsonParse stringValue with
          | some v => v
          | none =>
            .vArr ((strSplit (jsSliceInner stringValue) ',').map (fun p => .vStr (strTrim p)))
        else
          .vArr ((((strSplit stringValue ',').map (fun p => strTrim p)).filter
                    (fun p => p ≠ "")).map .vStr)
      else if jsIncludes fieldName "JSON" || jsIncludes fieldName "Attributes" then
        match jsonParse stringValue with
        | some v => v
        | none => .vStr stringValue
      else if jsIncludes fieldName "Level" || jsIncludes fieldName "Duration" ||
              jsIncludes fieldName "Load" || jsIncludes fieldName "Concurrent" then
        match jsParseFloat stringValue with
        | some q => .vNum q
        | none => .vNull
      else if jsIncludes fieldName "Slots" then
        if strStartsWith stringValue "[" ∧ strEndsWith stringValue "]" then
          match jsonParse stringValue with
          | some v => v
          | none =>
            .vArr (((strSplit (jsSliceInner stringValue) ',').filterMap
                      (fun p => jsParseInt (strTrim p))).map (fun n => .vNum (n : ℚ)))
        else
          .vArr (((strSplit stringValue ',').filterMap
                    (fun p => jsParseInt (strTrim p))).map (fun n => .vNum (n : ℚ)))
      else .vStr stringValue

/-- JS truthiness of an optional string (`undefined`, `null` and `''` are
    falsy). -/
def optTruthy : Option String → Bool
  | some s => s ≠ ""
  | none => false

/-- JS truthiness of a dynamic value. -/
def jsTruthy : JsValue → Bool
  | .vNull => false
  | .vBool b => b
  | .vNum q => q ≠ 0
  | .vStr s => s ≠ ""
  | .vArr _ => true
  | .vObj _ => true

/-- An optional string as the dynamic value recorded in a diagnostic. -/
def optStrVal : Option String → JsValue
  | some s => .vStr s
  | none => .vNull

/-- An optional number as the dynamic value recorded in a diagnostic. -/
def optNumVal : Option ℚ → JsValue
  | some q => .vNum q
  | none => .vNull

/-- JS `Number(string)`: trimmed empty string is 0, otherwise the full string
    must be a decimal literal `sign? digits (. digits?)? (e sign? digits)?`
    (hex and `Infinity` literals are not modelled; they never arise here);
    `none` models NaN. -/
def jsStringToNumber (s : String) : Option ℚ :=
  let t := strTrim s
  if t = "" then some 0
  else
    let cs := t.data
    let (sgn, cs1) : ℚ × List Char :=
      match cs with
      | '-' :: r => (-1, r)
      | '+' :: r => (1, r)
      | _ => (1, cs)
    let (ip, cs2) := takeDigits cs1
    let (fp, cs3) : List ℕ × List Char :=
      match cs2 with
      | '.' :: r => takeDigits r
      | _ => ([], cs2)
    if ip = [] ∧ fp = [] then none
    else
      let mant : ℚ := sgn * ((digitsVal ip : ℚ) + (digitsVal fp : ℚ) / (10 : ℚ) ^ fp.length)
      match cs3 with
      | [] => some mant
      | c :: r =>
        if c = 'e' ∨ c = 'E' then
          let (esgn, r1) : ℤ × List Char :=
            match r with
            | '-' :: r2 => (-1, r2)
            | '+' :: r2 => (1, r2)
            | _ => (1, r)
          let (ds, rest) := takeDigits r1
          if ds = [] ∨ rest ≠ [] then none
          else
            let ex : ℤ := esgn * (digitsVal ds : ℕ)
            some (if 0 ≤ ex then mant * (10 : ℚ) ^ ex.toNat else mant / (10 : ℚ) ^ (-ex).toNat)
        else none

/-- JS numeric coercion `Number(v)` of a dynamic value (`none` models NaN;
    array/object `ToPrimitive` is not modelled — such values never reach a
    numeric context in the claims). -/
def toNumber : JsValue → Option ℚ
  | .vNull => some 0
  | .vBool b => some (if b then 1 else 0)
  | .vNum q => some q
  | .vStr s => jsStringToNumber s
  | .vArr _ => none
  | .vObj _ => none

/-- The `Client` record (coerced row): fields are `none` when the cell was
    null/undefined. -/
structure Client where
  ClientID : Option String
  ClientName : Option String
  PriorityLevel : Option ℚ
  RequestedTaskIDs : Option JsValue
  GroupTag : Option String
  AttributesJSON : Option JsValue

/-- The `Worker` record (coerced row). -/
structure Worker where
  WorkerID : Option String
  WorkerName : Option String
  Skills : Option JsValue
  AvailableSlots : Option JsValue
  MaxLoadPerPhase : Option ℚ
  WorkerGroup : Option String
  QualificationLevel : Option ℚ

/-- The `Task` record (coerced row); named `TaskRow` because `Task` clashes
    with a core Lean type. -/
structure TaskRow where
  TaskID : Option String
  TaskName : Option String
  Category : Option String
  Duration : Option ℚ
  RequiredSkills : Option JsValue
  PreferredPhases : Option JsValue
  MaxConcurrent : Option ℚ

/-- A `ValidationError` diagnostic (the generated random `id` is omitted:
    nothing in the source reads it back). -/
structure ValidationError where
  type : String
  severity : String
  entity : DataType
  row : ℕ
  column : String
  message : String
  value : JsValue
  suggestion : Option String
  autoFixAvailable : Bool

/-- `addError`: type 'error', severity 'high';
    `autoFixAvailable = !!suggestion`. -/
def addErr (entity : DataType) (row : ℕ) (column message : String) (value : JsValue)
    (suggestion : Option String) : ValidationError :=
  { type := "error", severity := "high", entity := entity, row := row,
    column := column, message := message, value := value, suggestion := suggestion,
    autoFixAvailable := optTruthy suggestion }

/-- `addWarning`: type 'warning', severity 'medium';
    `autoFixAvailable = !!suggestion`. -/
def addWarn (entity : DataType) (row : ℕ) (column message : String) (value : JsValue)
    (suggestion : Option String) : ValidationError :=
  { type := "warning", severity := "medium", entity := entity, row := row,
    column := column, message := message, value := value, suggestion := suggestion,
    autoFixAvailable := optTruthy suggestion }

/-- Rule block: missing `ClientID`. -/
def clientMissingIdErr (index : ℕ) (c : Client) : List ValidationError :=
  if optTruthy c.ClientID then []
  else [addErr .clients index "ClientID" "Missing required field: ClientID"
          (optStrVal c.ClientID) none]

/-- Rule block: missing `ClientName`. -/
def clientMissingNameErr (index : ℕ) (c : Client) : List ValidationError :=
  if optTruthy c.ClientName then []
  else [addErr .clients index "ClientName" "Missing required field: ClientName"
          (optStrVal c.ClientName) none]

/-- Rule block: missing `PriorityLevel` (null/undefined). -/
def clientMissingPriorityErr (index : ℕ) (c : Client) : List ValidationError :=
  match c.PriorityLevel with
  | some _ => []
  | none => [addErr .clients index "PriorityLevel" "Missing required field: PriorityLevel"
               (optNumVal c.PriorityLevel) none]

/-- Rule block: duplicate `ClientID` against the running seen-set. -/
def clientDupIdErr (index : ℕ) (c : Client) (clientIds : List String) : List ValidationError :=
  match c.ClientID with
  | some s =>
    if s ≠ "" ∧ clientIds.contains s then
      [addErr .clients index "ClientID" ("Duplicate ClientID: " ++ s) (.vStr s)
         (some "Consider adding a suffix or using a unique identifier")]
    else []
  | none => []

/-- Rule block: `PriorityLevel` out of the range [1, 5]. -/
def clientPriorityRangeErr (index : ℕ) (c : Client) : List ValidationError :=
  match c.PriorityLevel with
  | some v =>
    if v < 1 ∨ v > 5 then
      [addErr .clients index "PriorityLevel" "PriorityLevel must be between 1 and 5" (.vNum v)
         (some "Use a value between 1 (lowest) and 5 (highest)")]
    else []
  | none => []

/-- Rule block: malformed `RequestedTaskIDs` (error when not an array,
    warning when some ids are empty or non-string). -/
def clientReqTaskDiags (index : ℕ) (c : Client) : List ValidationError × List ValidationError :=
  match c.RequestedTaskIDs with
  | some v =>
    if jsTruthy v then
      match v with
      | .vArr ids =>
        if ids.any (fun id => match id with | .vStr s => s = "" | _ => true) then
          ([], [addWarn .clients index "RequestedTaskIDs" "Some task IDs are empty or invalid"
                  (.vArr ids) none])
        else ([], [])
      | _ => ([addErr .clients index "RequestedTaskIDs" "RequestedTaskIDs must be an array" v
                 (some "Format as comma-separated values or JSON array")], [])
    else ([], [])
  | none => ([], [])

/-- Rule block: broken JSON in a string-valued `AttributesJSON`. -/
def clientAttrJsonErr (index : ℕ) (c : Client) : List ValidationError :=
  match c.AttributesJSON with
  | some (.vStr s) =>
    if s ≠ "" then
      match jsonParse s with
      | some _ => []
      | none => [addErr .clients index "AttributesJSON" "Invalid JSON format in AttributesJSON"
                   (.vStr s) (some "Ensure proper JSON syntax with quotes around keys and values")]
    else []
  | _ => []

/-- Rule block: quality warning for a very short `ClientName`. -/
def clientNameShortWarn (index : ℕ) (c : Client) : List ValidationError :=
  match c.ClientName with
  | some s =>
    if s ≠ "" ∧ s.length < 2 then
      [addWarn .clients index "ClientName" "Client name seems too short" (.vStr s) none]
    else []
  | none => []

/-- Rule block: quality warning for an unrecognized `GroupTag`. -/
def clientGroupTagWarn (index : ℕ) (c : Client) : List ValidationError :=
  match c.GroupTag with
  | some s =>
    if s ≠ "" ∧ !(["Enterprise", "SMB", "Startup", "Freelancer"].contains s) then
      [addWarn .clients index "GroupTag" "Unusual group tag value" (.vStr s) none]
    else []
  | none => []

/-- All diagnostics `validateClients` emits for one client row, in source
    (push) order, given the `clientIds` seen so far: `(errors, warnings)`. -/
def clientRowDiags (index : ℕ) (c : Client) (clientIds : List String) :
    List ValidationError × List ValidationError :=
  (clientMissingIdErr index c ++ clientMissingNameErr index c ++
     clientMissingPriorityErr index c ++ clientDupIdErr index c clientIds ++
     clientPriorityRangeErr index c ++ (clientReqTaskDiags index c).1 ++
     clientAttrJsonErr index c,
   (clientReqTaskDiags index c).2 ++ clientNameShortWarn index c ++ clientGroupTagWarn index c)

/-- The `clients.forEach` loop of `validateClients`, threading the running
    `clientIds` set (an identifier is added whenever it is truthy). -/
def validateClientsGo : List Client → ℕ → List String → List ValidationError × List ValidationError
  | [], _, _ => ([], [])
  | c :: rest, index, clientIds =>
    let d := clientRowDiags index c clientIds
    let clientIds2 := match c.ClientID with
      | some s => if s ≠ "" then clientIds ++ [s] else clientIds
      | none => clientIds
    let dr := validateClientsGo rest (index + 1) clientIds2
    (d.1 ++ dr.1, d.2 ++ dr.2)

/-- `validateClients` (validator.ts lines 82–138). -/
def validateClients (clients : List Client) : List ValidationError × List ValidationError :=
  validateClientsGo clients 0 []

/-- All diagnostics `validateWorkers` emits for one worker row. -/
def workerRowDiags (index : ℕ) (w : Worker) (workerIds : List String) :
    List ValidationError × List ValidationError :=
  let e1 := if optTruthy w.WorkerID then []
            else [addErr .workers index "WorkerID" "Missing required field: WorkerID"
                    (optStrVal w.WorkerID) none]
  let e2 := if optTruthy w.WorkerName then []
            else [addErr .workers index "WorkerName" "Missing required field: WorkerName"
                    (optStrVal w.WorkerName) none]
  let e3 := match w.Skills with
    | some (.vArr xs) =>
      if xs.isEmpty then
        [addErr .workers index "Skills" "Missing or empty skills array" (.vArr xs)
           (some "Add at least one skill")]
      else []
    | some v => [addErr .workers index "Skills" "Missing or empty skills array" v
                   (some "Add at least one skill")]
    | none => [addErr .workers index "Skills" "Missing or empty skills array" .vNull
                 (some "Add at least one skill")]
  let e4 := match w.WorkerID with
    | some s =>
      if s ≠ "" ∧ workerIds.contains s then
        [addErr .workers index "WorkerID" ("Duplicate WorkerID: " ++ s) (.vStr s) none]
      else []
    | none => []
  let e5 := match w.AvailableSlots with
    | some v =>
      if jsTruthy v then
        match v with
        | .vArr xs =>
          let invalidSlots := xs.filter (fun slot =>
            match slot with | .vNum q => decide (q < 0) | _ => true)
          if invalidSlots.length > 0 then
            [addErr .workers index "AvailableSlots" "Invalid slot values (must be positive numbers)"
               (.vArr invalidSlots) none]
          else []
        | _ => [addErr .workers index "AvailableSlots" "AvailableSlots must be an array" v none]
      else []
    | none => []
  let ew6 := match w.MaxLoadPerPhase with
    | some l =>
      let a := if l ≤ 0 then
          [addErr .workers index "MaxLoadPerPhase" "MaxLoadPerPhase must be greater than 0"
             (.vNum l) none]
        else []
      let b := match w.AvailableSlots with
        | some (.vArr xs) =>
          let maxSlots := xs.foldl (fun acc sl =>
            match acc, toNumber sl with
            | some m, some q => some (max m q)
            | _, _ => none) (some (0 : ℚ))
          match maxSlots with
          | some m =>
            if l > m then
              [addWarn .workers index "MaxLoadPerPhase"
                 "MaxLoadPerPhase exceeds maximum available slots" (.vNum l) none]
            else []
          | none => []
        | _ => []
      (a, b)
    | none => ([], [])
  let w2 := match w.Skills with
    | some (.vArr xs) =>
      let emptySkills := xs.filter (fun sk => match sk with | .vStr s => s = "" | _ => true)
      if emptySkills.length > 0 then
        [addWarn .workers index "Skills" "Some skills are empty or invalid" (.vArr emptySkills) none]
      else []
    | _ => []
  let w3 := match w.WorkerName with
    | some s =>
      if s ≠ "" ∧ s.length < 2 then
        [addWarn .workers index "WorkerName" "Worker name seems too short" (.vStr s) none]
      else []
    | none => []
  let w4 := match w.QualificationLevel with
    | some q =>
      if q < 1 ∨ q > 10 then
        [addWarn .workers index "QualificationLevel" "Unusual qualification level (expected 1-10)"
           (.vNum q) none]
      else []
    | none => []
  (e1 ++ e2 ++ e3 ++ e4 ++ e5 ++ ew6.1, ew6.2 ++ w2 ++ w3 ++ w4)

/-- The `workers.forEach` loop of `validateWorkers`. -/
def validateWorkersGo : List Worker → ℕ → List String → List ValidationError × List ValidationError
  | [], _, _ => ([], [])
  | w :: rest, index, workerIds =>
    let d := workerRowDiags index w workerIds
    let workerIds2 := match w.WorkerID with
      | some s => if s ≠ "" then workerIds ++ [s] else workerIds
      | none => workerIds
    let dr := validateWorkersGo rest (index + 1) workerIds2
    (d.1 ++ dr.1, d.2 ++ dr.2)

/-- `validateWorkers` (validator.ts lines 141–209). -/
def validateWorkers (workers : List Worker) : List ValidationError × List ValidationError :=
  validateWorkersGo workers 0 []

/-- All diagnostics `validateTasks` emits for one task row. -/
def taskRowDiags (index : ℕ) (t : TaskRow) (taskIds : List String) :
    List ValidationError × List ValidationError :=
  let e1 := if optTruthy t.TaskID then []
            else [addErr .tasks index "TaskID" "Missing required field: TaskID"
                    (optStrVal t.TaskID) none]
  let e2 := if optTruthy t.TaskName then []
            else [addErr .tasks index "TaskName" "Missing required field: TaskName"
                    (optStrVal t.TaskName) none]
  let e3 := if optTruthy t.Category then []
            else [addErr .tasks index "Category" "Missing required field: Category"
                    (optStrVal t.Category) none]
  let e4 := match t.Duration with
    | some _ => []
    | none => [addErr .tasks index "Duration" "Missing required field: Duration"
                 (optNumVal t.Duration) none]
  let e5 := match t.TaskID with
    | some s =>
      if s ≠ "" ∧ taskIds.contains s then
        [addErr .tasks index "TaskID" ("Duplicate TaskID: " ++ s) (.vStr s) none]
      else []
    | none => []
  let ew6 := match t.Duration with
    | some d =>
      ((if d ≤ 0 then
          [addErr .tasks index "Duration" "Duration must be greater than 0" (.vNum d) none]
        else []),
       (if d > 1000 then
          [addWarn .tasks index "Duration" "Unusually long duration" (.vNum d) none]
        else []))
    | none => ([], [])
  let ew7 := match t.RequiredSkills with
    | some v =>
      if jsTruthy v then
        match v with
        | .vArr xs =>
          if xs.length = 0 then
            ([], [addWarn .tasks index "RequiredSkills" "No required skills specified" (.vArr xs) none])
          else
            let emptySkills := xs.filter (fun sk =>
              match sk with | JsValue.vStr s => s = "" | _ => true)
            if emptySkills.length > 0 then
              ([], [addWarn .tasks index "RequiredSkills" "Some required skills are empty or invalid"
                      (.vArr emptySkills) none])
            else ([], [])
        | _ => ([addErr .tasks index "RequiredSkills" "RequiredSkills must be an array" v none], [])
      else ([], [])
    | none => ([], [])
  let e8 := match t.PreferredPhases with
    | some v =>
      if jsTruthy v then
        match v with
        | .vArr xs =>
          let invalidPhases := xs.filter (fun p =>
            match p with | .vNum q => decide (q < 1) | _ => true)
          if invalidPhases.length > 0 then
            [addErr .tasks index "PreferredPhases" "Invalid phase values (must be positive numbers)"
               (.vArr invalidPhases) none]
          else []
        | _ => [addErr .tasks index "PreferredPhases" "PreferredPhases must be an array" v none]
      else []
    | none => []
  let e9 := match t.MaxConcurrent with
    | some m =>
      if m ≤ 0 then
        [addErr .tasks index "MaxConcurrent" "MaxConcurrent must be greater than 0" (.vNum m) none]
      else []
    | none => []
  let w3 := match t.TaskName with
    | some s =>
      if s ≠ "" ∧ s.length < 3 then
        [addWarn .tasks index "TaskName" "Task name seems too short" (.vStr s) none]
      else []
    | none => []
  (e1 ++ e2 ++ e3 ++ e4 ++ e5 ++ ew6.1 ++ ew7.1 ++ e8 ++ e9, ew6.2 ++ ew7.2 ++ w3)

/-- The `tasks.forEach` loop of `validateTasks`. -/
def validateTasksGo : List TaskRow → ℕ → List String → List ValidationError × List ValidationError
  | [], _, _ => ([], [])
  | t :: rest, index, taskIds =>
    let d := taskRowDiags index t taskIds
    let taskIds2 := match t.TaskID with
      | some s => if s ≠ "" then taskIds ++ [s] else taskIds
      | none => taskIds
    let dr := validateTasksGo rest (index + 1) taskIds2
    (d.1 ++ dr.1, d.2 ++ dr.2)

/-- `validateTasks` (validator.ts lines 212–286). -/
def validateTasks (tasks : List TaskRow) : List ValidationError × List ValidationError :=
  validateTasksGo tasks 0 []

/-- The three sibling collections passed as `allData`. -/
structure AllData where
  clients : List Client
  workers : List Worker
  tasks : List TaskRow

/-- `===` between a requested-task-id cell and a `TaskID` field (the task-id
    `Set` stores strings, or null for a missing `TaskID`). -/
def jsEqOptStr (v : JsValue) (o : Option String) : Bool :=
  match v, o with
  | .vStr s, some s2 => s == s2
  | .vNull, none => true
  | _, _ => false

/-- `taskIds.has(taskId)` for `taskIds = new Set(tasks.map(t => t.TaskID))`. -/
def taskIdsHas (tasks : List TaskRow) (id : JsValue) : Bool :=
  tasks.any (fun t => jsEqOptStr id t.TaskID)

/-- JS number-to-string for the message templates (only integral values occur
    in practice; non-integral rationals fall back to `num/den` form). -/
def jsNumToString (q : ℚ) : String :=
  if q.den = 1 then toString q.num else toString q.num ++ "/" ++ toString q.den

/-- Element stringification used by `Array.prototype.join` (null/undefined
    become the empty string; nested array/object display is not needed). -/
def jsDisplay : JsValue → String
  | .vNull => ""
  | .vBool b => toString b
  | .vNum q => jsNumToString q
  | .vStr s => s
  | .vArr _ => ""
  | .vObj _ => ""

/-- JS `xs.join(sep)`. -/
def jsJoin (sep : String) (xs : List JsValue) : String :=
  String.intercalate sep (xs.map jsDisplay)

/-- Cross-entity check 1 (validator.ts lines 295–302): per client row, the
    requested task ids that resolve to no task are batched into one error. -/
def crossClientsGo (tasks : List TaskRow) : List Client → ℕ → List ValidationError
  | [], _ => []
  | c :: rest, index =>
    (match c.RequestedTaskIDs with
     | some (.vArr ids) =>
       let invalidTaskIds := ids.filter (fun tid => !(taskIdsHas tasks tid))
       if invalidTaskIds.length > 0 then
         [addErr .clients index "RequestedTaskIDs"
            ("Referenced task IDs not found: " ++ jsJoin ", " invalidTaskIds)
            (.vArr invalidTaskIds) none]
       else []
     | _ => []) ++ crossClientsGo tasks rest (index + 1)

/-- `workers.flatMap(w => w.Skills || [])`: a falsy `Skills` contributes
    nothing, a truthy non-array contributes itself as one element. -/
def allSkills (workers : List Worker) : List JsValue :=
  workers.flatMap (fun w =>
    match w.Skills with
    | none => []
    | some v => if jsTruthy v then (match v with | .vArr xs => xs | _ => [v]) else [])

/-- Cross-entity check 2 (lines 305–312): skills required by a task but held
    by no worker, one warning per task row. -/
def crossSkillsGo (skills : List JsValue) : List TaskRow → ℕ → List ValidationError
  | [], _ => []
  | t :: rest, index =>
    (match t.RequiredSkills with
     | some (.vArr xs) =>
       let uncoveredSkills := xs.filter (fun sk => !(skills.any (fun s2 => jsEqPrim sk s2)))
       if uncoveredSkills.length > 0 then
         [addWarn .tasks index "RequiredSkills"
            ("No workers have these required skills: " ++ jsJoin ", " uncoveredSkills)
            (.vArr uncoveredSkills) none]
       else []
     | _ => []) ++ crossSkillsGo skills rest (index + 1)

/-- `workers.flatMap(w => w.AvailableSlots || [])`. -/
def allSlots (workers : List Worker) : List JsValue :=
  workers.flatMap (fun w =>
    match w.AvailableSlots with
    | none => []
    | some v => if jsTruthy v then (match v with | .vArr xs => xs | _ => [v]) else [])

/-- `Math.max(...xs, 0)` under numeric coercion; `none` models NaN, which
    makes every later comparison false. -/
def jsMaxWithZero (xs : List JsValue) : Option ℚ :=
  xs.foldl (fun acc v =>
    match acc, toNumber v with
    | some m, some q => some (max m q)
    | _, _ => none) (some (0 : ℚ))

/-- Cross-entity check 3 (lines 315–323): preferred phases beyond the maximum
    worker slot, one warning per task row. -/
def crossPhasesGo (maxPhase : Option ℚ) : List TaskRow → ℕ → List ValidationError
  | [], _ => []
  | t :: rest, index =>
    (match t.PreferredPhases with
     | some (.vArr xs) =>
       let invalidPhases := xs.filter (fun p =>
         match toNumber p, maxPhase with
         | some a, some m => decide (a > m)
         | _, _ => false)
       if invalidPhases.length > 0 then
         [addWarn .tasks index "PreferredPhases"
            ("Some preferred phases exceed worker availability: " ++ jsJoin ", " invalidPhases)
            (.vArr invalidPhases) none]
       else []
     | _ => []) ++ crossPhasesGo maxPhase rest (index + 1)

/-- `worker.AvailableSlots?.length || 1` (a zero length is falsy and also
    falls back to 1; `?.length` of a string value is its length). -/
def slotCountOr1 (w : Worker) : ℚ :=
  match w.AvailableSlots with
  | some (.vArr xs) => if xs.length = 0 then 1 else (xs.length : ℚ)
  | some (.vStr s) => if s.length = 0 then 1 else (s.length : ℚ)
  | _ => 1

/-- `validateCrossReferences` (validator.ts lines 289–332):
    errors from check 1, warnings from checks 2–4 in source order. -/
def validateCrossReferences (allData : AllData) : List ValidationError × List ValidationError :=
  let errs := crossClientsGo allData.tasks allData.clients 0
  let warns1 := crossSkillsGo (allSkills allData.workers) allData.tasks 0
  let warns2 := crossPhasesGo (jsMaxWithZero (allSlots allData.workers)) allData.tasks 0
  let totalTaskDuration : ℚ := allData.tasks.foldl (fun s t => s + t.Duration.getD 0) 0
  let totalWorkerCapacity : ℚ :=
    allData.workers.foldl (fun s w => s + (w.MaxLoadPerPhase.getD 0) * slotCountOr1 w) 0
  let warns3 :=
    if totalTaskDuration > totalWorkerCapacity then
      [addWarn .tasks 0 "Duration" "Total task duration may exceed total worker capacity"
         (.vStr (jsNumToString totalTaskDuration ++ " hrs vs " ++
                 jsNumToString totalWorkerCapacity ++ " hrs capacity")) none]
    else []
  (errs, warns1 ++ warns2 ++ warns3)

/-- The `(data, dataType)` pair of `validate`, coupled so the row type matches
    the entity kind. -/
inductive EntityData
  | clients (rows : List Client)
  | workers (rows : List Worker)
  | tasks (rows : List TaskRow)

/-- `data.length`. -/
def dataLen : EntityData → ℕ
  | .clients rows => rows.length
  | .workers rows => rows.length
  | .tasks rows => rows.length

/-- The `summary` object of a `ValidationResult`. -/
structure ValidationSummary where
  totalErrors : ℕ
  totalWarnings : ℕ
  validRows : ℤ
  totalRows : ℕ

/-- The result object of `validate`. -/
structure ValidationResult where
  isValid : Bool
  errors : List ValidationError
  warnings : List ValidationError
  confidence : ℤ
  summary : ValidationSummary

/-- `DataValidator.validate` (validator.ts lines 10–48): run the per-entity
    pass, then the cross-entity pass when `allData` is present;
    `validRows = data.length - errors.filter(e => e.type === 'error').length`
    and `confidence = data.length > 0 ? Math.round((validRows / data.length) * 100) : 100`. -/
def validate (data : EntityData) (allData : Option AllData) : ValidationResult :=
  let entDiags := match data with
    | .clients cs => validateClients cs
    | .workers ws => validateWorkers ws
    | .tasks ts => validateTasks ts
  let crossDiags := match allData with
    | some ad => validateCrossReferences ad
    | none => ([], [])
  let errors := entDiags.1 ++ crossDiags.1
  let warnings := entDiags.2 ++ crossDiags.2
  let validRows : ℤ :=
    (dataLen data : ℤ) - ((errors.filter (fun e => e.type = "error")).length : ℤ)
  let confidence : ℤ :=
    if 0 < dataLen data then jsRound (((validRows : ℚ) / (dataLen data : ℚ)) * 100) else 100
  { isValid := errors.length = 0,
    errors := errors,
    warnings := warnings,
    confidence := confidence,
    summary := { totalErrors := errors.length, totalWarnings := warnings.length,
                 validRows := validRows, totalRows := dataLen data } }

/-- `generateAutoFix` (validator.ts lines 339–377). -/
def generateAutoFix (error : ValidationError) : JsValue :=
  if error.column = "PriorityLevel" then
    match error.value with
    | .vNum q => .vNum ((max 1 (min 5 (jsRound q)) : ℤ) : ℚ)
    | _ => .vNum 3
  else if error.column = "Duration" then
    match error.value with
    | .vNum q => if q ≤ 0 then .vNum 1 else error.value
    | _ => error.value
  else if error.column = "MaxLoadPerPhase" then
    match error.value with
    | .vNum q => if q ≤ 0 then .vNum 8 else error.value
    | _ => error.value
  else if error.column = "RequestedTaskIDs" ∨ error.column = "Skills" ∨
          error.column = "RequiredSkills" then
    match error.value with
    | .vStr s =>
      .vArr ((((strSplit s ',').map (fun p => strTrim p)).filter (fun p => p ≠ "")).map .vStr)
    | _ => .vArr []
  else if error.column = "AvailableSlots" ∨ error.column = "PreferredPhases" then
    match error.value with
    | .vStr s =>
      .vArr (((strSplit s ',').filterMap (fun p => jsParseInt (strTrim p))).map
        (fun n => .vNum (n : ℚ)))
    | _ => .vArr []
  else error.value

/-! ### Bounds on the Levenshtein dynamic program -/

lemma levRowGo_length (c2 : Char) :
    ∀ (s : List Char) (prev : List ℕ) (diag left : ℕ), prev.length = s.length →
      (levRowGo c2 diag prev left s).length = s.length := by
  intro s
  induction s with
  | nil => intro prev diag left _; simp [levRowGo]
  | cons c1 cs ih =>
    intro prev diag left hlen
    match prev with
    | [] => simp at hlen
    | up :: rest =>
      simp only [List.length_cons, Nat.succ_inj] at hlen
      simp [levRowGo, ih rest up _ hlen]

lemma levRowGo_bound (c2 : Char) :
    ∀ (s : List Char) (prev : List ℕ) (diag left i0 jp : ℕ),
      prev.length = s.length →
      diag ≤ max i0 jp →
      (∀ k (hk : k < prev.length), prev.get ⟨k, hk⟩ ≤ max (i0 + 1 + k) jp) →
      left ≤ max i0 (jp + 1) →
      ∀ k (hk : k < (levRowGo c2 diag prev left s).length),
        (levRowGo c2 diag prev left s).get ⟨k, hk⟩ ≤ max (i0 + 1 + k) (jp + 1) := by
  intro s
  induction s with
  | nil => intro prev diag left i0 jp _ _ _ _ k hk; simp [levRowGo] at hk
  | cons c1 cs ih =>
    intro prev diag left i0 jp hlen hdiag hprev hleft k hk
    match prev with
    | [] => simp at hlen
    | up :: rest =>
      simp only [List.length_cons, Nat.succ_inj] at hlen
      have hup : up ≤ max (i0 + 1) jp := by
        have := hprev 0 (by simp)
        simpa using this
      have hv : min (left + 1) (min (up + 1) (diag + (if c1 = c2 then 0 else 1)))
          ≤ max (i0 + 1) (jp + 1) := by
        have hind : (if c1 = c2 then 0 else 1) ≤ 1 := by split <;> omega
        omega
      match k with
      | 0 => simpa [levRowGo] using hv
      | k + 1 =>
        have hrest : ∀ k (hk : k < rest.length),
            rest.get ⟨k, hk⟩ ≤ max ((i0 + 1) + 1 + k) jp := by
          intro k hk
          have := hprev (k + 1) (by simpa using Nat.succ_lt_succ hk)
          simpa [Nat.add_assoc, Nat.add_comm, Nat.add_left_comm] using this
        have hk' : k < (levRowGo c2 up rest
            (min (left + 1) (min (up + 1) (diag + (if c1 = c2 then 0 else 1)))) cs).length := by
          simpa [levRowGo] using hk
        have := ih rest up _ (i0 + 1) jp hlen hup hrest hv k hk'
        simpa [levRowGo, Nat.add_assoc, Nat.add_comm, Nat.add_left_comm] using this

/-- Row invariant of the Levenshtein matrix: row `j` has length `m + 1`
    (for `m = s1.length`) and its entry `k` is at most `max k j`. -/
def RowBound (m j : ℕ) (row : List ℕ) : Prop :=
  row.length = m + 1 ∧ ∀ k (hk : k < row.length), row.get ⟨k, hk⟩ ≤ max k j

lemma levRow_bound (c2 : Char) (s1 : List Char) (prev : List ℕ) (jp : ℕ)
    (h : RowBound s1.length jp prev) :
    RowBound s1.length (jp + 1) (levRow c2 prev (jp + 1) s1) := by
  obtain ⟨hlen, hbd⟩ := h
  match prev with
  | [] => simp at hlen
  | diag :: rest =>
    simp only [List.length_cons, Nat.succ_inj] at hlen
    have hdiag : diag ≤ max 0 jp := by simpa using hbd 0 (by simp)
    have hrest : ∀ k (hk : k < rest.length), rest.get ⟨k, hk⟩ ≤ max (0 + 1 + k) jp := by
      intro k hk
      have := hbd (k + 1) (by simpa using Nat.succ_lt_succ hk)
      simpa [Nat.add_comm] using this
    constructor
    · simp [levRow, levRowGo_length c2 s1 rest diag (jp + 1) hlen, hlen]
    · intro k hk
      match k with
      | 0 => simp [levRow]
      | k + 1 =>
        have hk' : k < (levRowGo c2 diag rest (jp + 1) s1).length := by
          simpa [levRow] using hk
        have := levRowGo_bound c2 s1 rest diag (jp + 1) 0 jp hlen hdiag hrest
          (by simp) k hk'
        simpa [levRow, Nat.add_comm] using this

lemma levRowsGo_bound (s1 : List Char) :
    ∀ (s2 : List Char) (j : ℕ) (row : List ℕ), RowBound s1.length j row →
      RowBound s1.length (j + s2.length) (levRowsGo s1 s2 j row) := by
  intro s2
  induction s2 with
  | nil => intro j row h; simpa [levRowsGo] using h
  | cons c2 cs2 ih =>
    intro j row h
    have := ih (j + 1) (levRow c2 row (j + 1) s1) (levRow_bound c2 s1 row j h)
    simpa [levRowsGo, Nat.add_assoc, Nat.add_comm, Nat.add_left_comm] using this

lemma levDist_le (s1 s2 : List Char) : levDist s1 s2 ≤ max s1.length s2.length := by
  have hbase : RowBound s1.length 0 (List.range (s1.length + 1)) := by
    refine ⟨by simp, ?_⟩
    intro k hk
    simp only [List.get_eq_getElem, List.getElem_range]
    omega
  have h := levRowsGo_bound s1 s2 0 (List.range (s1.length + 1)) hbase
  obtain ⟨hlen, hbd⟩ := h
  have hm : s1.length < (levRowsGo s1 s2 0 (List.range (s1.length + 1))).length := by omega
  have := hbd s1.length hm
  rw [levDist, List.getD_eq_getElem _ _ hm]
  simpa using this

/-! ### Properties of the similarity scorer -/

lemma jsIncludes_empty_sub (s : String) : jsIncludes s "" = true := by
  rw [jsIncludes]
  cases h : s.data with
  | nil => simp [List.tails]
  | cons c cs => simp [List.tails]

lemma calculateSimilarity_le_one (a b : String) : calculateSimilarity a b ≤ 1 := by
  rw [calculateSimilarity]
  split
  · exact le_refl 1
  · split
    · norm_num
    · have h1 : (0 : ℚ) ≤ (levDist (normalizeStr a).data (normalizeStr b).data : ℚ) := by
        positivity
      have h2 : (0 : ℚ) ≤ ((max (normalizeStr a).length (normalizeStr b).length : ℕ) : ℚ) := by
        positivity
      have := div_nonneg h1 h2
      linarith

lemma calculateSimilarity_nonneg (a b : String) : 0 ≤ calculateSimilarity a b := by
  rw [calculateSimilarity]
  split
  · norm_num
  · split
    · norm_num
    · rename_i hne hinc
      have ha : (normalizeStr a).data ≠ [] := by
        intro h
        apply hinc
        have : normalizeStr a = "" := by
          cases hsa : normalizeStr a with
          | mk d => simp only [hsa] at h; simp [h]
        rw [this]
        simp [jsIncludes_empty_sub]
      have hlen : 1 ≤ (normalizeStr a).length := by
        have h1 : 0 < (normalizeStr a).data.length := List.length_pos.mpr ha
        have hsl : (normalizeStr a).length = (normalizeStr a).data.length := rfl
        omega
      have hmaxpos : (0 : ℚ) < ((max (normalizeStr a).length (normalizeStr b).length : ℕ) : ℚ) := by
        have : 1 ≤ max (normalizeStr a).length (normalizeStr b).length := le_max_of_le_left hlen
        exact_mod_cast Nat.lt_of_lt_of_le Nat.zero_lt_one this
      have hdle : (levDist (normalizeStr a).data (normalizeStr b).data : ℚ) ≤
          ((max (normalizeStr a).length (normalizeStr b).length : ℕ) : ℚ) := by
        have := levDist_le (normalizeStr a).data (normalizeStr b).data
        have hsl : ∀ t : String, t.data.length = t.length := fun t => rfl
        exact_mod_cast by simpa [hsl] using this
      have := (div_le_one hmaxpos).mpr hdle
      linarith

lemma lowerChar_fix (c : Char) (h : isLowerAlnum c = true) : lowerChar c = c := by
  rw [isLowerAlnum] at h
  simp only [Bool.or_eq_true, Bool.and_eq_true, decide_eq_true_eq] at h
  rw [lowerChar, if_neg]
  omega

lemma filter_map_lower_id :
    ∀ (l : List Char), (∀ c ∈ l, isLowerAlnum c = true) →
      (l.map lowerChar).filter (fun c => isLowerAlnum c) = l := by
  intro l
  induction l with
  | nil => intro _; simp
  | cons c cs ih =>
    intro h
    have hc := h c (by simp)
    have hcs := fun x hx => h x (List.mem_cons_of_mem c hx)
    simp [lowerChar_fix c hc, hc, ih hcs]

lemma normalizeStr_idem (s : String) : normalizeStr (normalizeStr s) = normalizeStr s := by
  have hdata : (normalizeStr s).data = (s.data.map lowerChar).filter (fun c => isLowerAlnum c) := rfl
  have hmem : ∀ c ∈ (normalizeStr s).data, isLowerAlnum c = true := by
    intro c hc
    rw [hdata] at hc
    exact (List.mem_filter.mp hc).2
  calc normalizeStr (normalizeStr s)
      = String.mk (((normalizeStr s).data.map lowerChar).filter (fun c => isLowerAlnum c)) := rfl
    _ = String.mk (normalizeStr s).data := by rw [filter_map_lower_id _ hmem]
    _ = normalizeStr s := rfl

lemma calculateSimilarity_of_norm_eq (a b : String) (h : normalizeStr a = normalizeStr b) :
    calculateSimilarity a b = 1 := by
  rw [calculateSimilarity, if_pos h]

lemma calculateSimilarity_normalized (h : String) :
    calculateSimilarity h (normalizeStr h) = 1 :=
  calculateSimilarity_of_norm_eq h (normalizeStr h) (normalizeStr_idem h).symm

/-! ### Invariants of the header-mapper scan -/

/-- Scan-state invariant: whenever the running best score clears the 0.6
    threshold, the candidate is a real, still-unclaimed header and the score
    is witnessed by some alternative. -/
def PickInv (headers alts used : List String) (st : String × ℚ) : Prop :=
  (6/10 : ℚ) < st.2 →
    st.1 ∈ headers ∧ st.1 ∉ used ∧ ∃ a ∈ alts, st.2 ≤ calculateSimilarity st.1 a

lemma fuzzyFold_inv (headers alts used : List String) (h : String)
    (hh : h ∈ headers) (hu : h ∉ used) :
    ∀ (as : List String), as ⊆ alts → ∀ st, PickInv headers alts used st →
      PickInv headers alts used (fuzzyFold h as st) := by
  intro as
  induction as with
  | nil => intro _ st hst; simpa [fuzzyFold] using hst
  | cons a rest ih =>
    intro hsub st hst
    rw [fuzzyFold]
    apply ih (fun x hx => hsub (List.mem_cons_of_mem a hx))
    split
    · rename_i hcond
      intro _
      exact ⟨hh, hu, a, hsub (by simp), le_refl _⟩
    · exact hst

lemma pickGo_inv (alts used : List String) :
    ∀ (hs headers : List String), hs ⊆ headers → ∀ st, PickInv headers alts used st →
      PickInv headers alts used (pickGo alts used hs st) := by
  intro hs
  induction hs with
  | nil => intro headers _ st hst; simpa [pickGo] using hst
  | cons h rest ih =>
    intro headers hsub st hst
    have hrest : rest ⊆ headers := fun x hx => hsub (List.mem_cons_of_mem h hx)
    rw [pickGo]
    split
    · exact ih headers hrest st hst
    · split
      · rename_i hused hdir
        apply ih headers hrest
        intro _
        refine ⟨hsub (by simp), ?_, normalizeStr h, ?_, ?_⟩
        · simpa using hused
        · simpa using hdir
        · rw [calculateSimilarity_normalized h]
      · rename_i hused _
        apply ih headers hrest
        apply fuzzyFold_inv headers alts used h (hsub (by simp)) (by simpa using hused)
          alts (fun x hx => hx) st hst

lemma pickHeader_inv (alts used headers : List String) :
    PickInv headers alts used (pickHeader alts used headers) := by
  apply pickGo_inv alts used headers headers (fun x hx => hx)
  intro hcontra
  norm_num at hcontra

lemma mapHeadersGo_used_nodup (headers : List String) :
    ∀ (fms : List (String × List String)) (st : List (String × String) × List String),
      st.1.map Prod.snd = st.2 → st.2.Nodup →
      (mapHeadersGo headers fms st).1.map Prod.snd = (mapHeadersGo headers fms st).2 ∧
        (mapHeadersGo headers fms st).2.Nodup := by
  intro fms
  induction fms with
  | nil => intro st h1 h2; exact ⟨h1, h2⟩
  | cons fa rest ih =>
    intro st h1 h2
    obtain ⟨field, alts⟩ := fa
    rw [mapHeadersGo]
    split
    · rename_i hcond
      apply ih
      · simp [h1]
      · have hnotused : (pickHeader alts st.2 headers).1 ∉ st.2 :=
          (pickHeader_inv alts st.2 headers hcond.2).2.1
        simp [List.nodup_append, h2, hnotused]
    · exact ih st h1 h2

lemma mapHeadersGo_pairs (headers : List String) (FMS : List (String × List String)) :
    ∀ (fms : List (String × List String)), fms ⊆ FMS →
      ∀ (st : List (String × String) × List String),
      (∀ p ∈ st.1, p.2 ∈ headers ∧ ∃ alts, (p.1, alts) ∈ FMS ∧
          ∃ a ∈ alts, (6/10 : ℚ) < calculateSimilarity p.2 a) →
      ∀ p ∈ (mapHeadersGo headers fms st).1, p.2 ∈ headers ∧ ∃ alts, (p.1, alts) ∈ FMS ∧
          ∃ a ∈ alts, (6/10 : ℚ) < calculateSimilarity p.2 a := by
  intro fms
  induction fms with
  | nil => intro _ st hst p hp; exact hst p hp
  | cons fa rest ih =>
    intro hsub st hst
    obtain ⟨field, alts⟩ := fa
    rw [mapHeadersGo]
    split
    · rename_i hcond
      apply ih (fun x hx => hsub (List.mem_cons_of_mem _ hx))
      intro p hp
      rcases List.mem_append.mp hp with hp1 | hp2
      · exact hst p hp1
      · have hpe : p = (field, (pickHeader alts st.2 headers).1) := by simpa using hp2
        obtain ⟨hmem, _, a, ha, hle⟩ := pickHeader_inv alts st.2 headers hcond.2
        subst hpe
        exact ⟨hmem, alts, hsub (by simp), a, ha, lt_of_lt_of_le hcond.2 hle⟩
    · exact ih (fun x hx => hsub (List.mem_cons_of_mem _ hx)) st hst

lemma fuzzyFold_stable_one (h : String) :
    ∀ (as : List String) (bm : String), fuzzyFold h as (bm, 1) = (bm, 1) := by
  intro as
  induction as with
  | nil => intro bm; rfl
  | cons a rest ih =>
    intro bm
    rw [fuzzyFold]
    have hle := calculateSimilarity_le_one h a
    rw [if_neg]
    · exact ih bm
    · intro hcond
      exact absurd (lt_of_lt_of_le hcond.1 hle) (lt_irrefl _)

lemma pickGo_stable_one (alts used : List String) :
    ∀ (hs : List String),
      (∀ h ∈ hs, ¬((!(used.contains h) && alts.contains (normalizeStr h)) = true)) →
      ∀ (bm : String), pickGo alts used hs (bm, 1) = (bm, 1) := by
  intro hs
  induction hs with
  | nil => intro _ bm; rfl
  | cons h rest ih =>
    intro hall bm
    have hh := hall h (by simp)
    have hrest := fun x hx => hall x (List.mem_cons_of_mem h hx)
    rw [pickGo]
    cases hu : used.contains h with
    | true =>
      rw [if_pos (show true = true from rfl)]
      exact ih hrest bm
    | false =>
      cases hdir : alts.contains (normalizeStr h) with
      | true => exact absurd (by rw [hu, hdir]; rfl) hh
      | false =>
        rw [if_neg Bool.false_ne_true, if_neg Bool.false_ne_true]
        rw [fuzzyFold_stable_one h alts bm]
        exact ih hrest bm

lemma getLast?_cons_of_ne_nil (a : String) (l : List String) (h : l ≠ []) :
    (a :: l).getLast? = l.getLast? := by
  match l with
  | [] => exact absurd rfl h
  | b :: t => exact List.getLast?_cons_cons

lemma pickGo_direct_last (alts used : List String) :
    ∀ (hs : List String) (g : String),
      (hs.filter (fun h => !(used.contains h) && alts.contains (normalizeStr h))).getLast? = some g →
      ∀ (st : String × ℚ), pickGo alts used hs st = (g, 1) := by
  intro hs
  induction hs with
  | nil => intro g hg; simp [List.filter] at hg
  | cons h rest ih =>
    intro g hg st
    rw [pickGo]
    cases hu : used.contains h with
    | true =>
      have hfil : (h :: rest).filter
          (fun h => !(used.contains h) && alts.contains (normalizeStr h)) =
          rest.filter (fun h => !(used.contains h) && alts.contains (normalizeStr h)) := by
        rw [List.filter_cons, if_neg (by rw [hu]; exact Bool.false_ne_true)]
      rw [hfil] at hg
      rw [if_pos (show true = true from rfl)]
      exact ih g hg st
    | false =>
      cases hdir : alts.contains (normalizeStr h) with
      | false =>
        have hfil : (h :: rest).filter
            (fun h => !(used.contains h) && alts.contains (normalizeStr h)) =
            rest.filter (fun h => !(used.contains h) && alts.contains (normalizeStr h)) := by
          rw [List.filter_cons, if_neg (by rw [hu, hdir]; exact Bool.false_ne_true)]
        rw [hfil] at hg
        rw [if_neg Bool.false_ne_true, if_neg Bool.false_ne_true]
        exact ih g hg (fuzzyFold h alts st)
      | true =>
        have hfil : (h :: rest).filter
            (fun h => !(used.contains h) && alts.contains (normalizeStr h)) =
            h :: rest.filter (fun h => !(used.contains h) && alts.contains (normalizeStr h)) := by
          rw [List.filter_cons, if_pos (by rw [hu, hdir]; rfl)]
        rw [if_neg Bool.false_ne_true, if_pos (show true = true from rfl)]
        cases hr : rest.filter (fun h => !(used.contains h) && alts.contains (normalizeStr h)) with
        | nil =>
          have hgh : g = h := by
            rw [hfil, hr, List.getLast?_singleton] at hg
            exact (Option.some_inj.mp hg).symm
          subst hgh
          exact pickGo_stable_one alts used rest (List.filter_eq_nil_iff.mp hr) g
        | cons b t =>
          have hg2 : (rest.filter
              (fun h => !(used.contains h) && alts.contains (normalizeStr h))).getLast? = some g := by
            rw [hfil, getLast?_cons_of_ne_nil h _ (by rw [hr]; exact List.cons_ne_nil b t)] at hg
            exact hg
          exact ih g hg2 (h, 1)

/-! ### Claim theorems: header mapper and similarity -/

/-- C4: for every list of incoming headers and every entity kind, `mapHeaders`
    never assigns the same incoming header to two distinct canonical fields —
    once claimed, a header is excluded from later fields, so the chosen
    headers (the association-list values) are pairwise distinct. -/
theorem c4_mapHeaders_no_header_reuse (headers : List String) (dataType : DataType) :
    ((mapHeaders headers dataType).map Prod.snd).Nodup := by
  have h := mapHeadersGo_used_nodup headers (HEADER_MAPPINGS dataType) ([], []) rfl List.nodup_nil
  rw [mapHeaders, h.1]
  exact h.2

/-- C5: a canonical field appears in the `mapHeaders` result only if the
    header it received is one of the incoming headers and some alternative of
    that field scores strictly above 0.6 against it (an exact normalized match
    scores 1).  Contrapositive: a field whose every incoming header scores at
    or below 0.6 against all its alternatives is absent from the result. -/
theorem c5_mapHeaders_threshold (headers : List String) (dataType : DataType)
    (field hdr : String) (hmem : (field, hdr) ∈ mapHeaders headers dataType) :
    hdr ∈ headers ∧ ∃ alts, (field, alts) ∈ HEADER_MAPPINGS dataType ∧
      ∃ a ∈ alts, (6/10 : ℚ) < calculateSimilarity hdr a := by
  refine mapHeadersGo_pairs headers (HEADER_MAPPINGS dataType) (HEADER_MAPPINGS dataType)
    (fun x hx => hx) ([], []) ?_ (field, hdr) hmem
  intro p hp
  simp at hp

theorem c5_mapHeaders_threshold_witness :
    "client_id" ∈ ["client_id"] ∧ ∃ alts, ("ClientID", alts) ∈ HEADER_MAPPINGS DataType.clients ∧
      ∃ a ∈ alts, (6/10 : ℚ) < calculateSimilarity "client_id" a :=
  c5_mapHeaders_threshold ["client_id"] DataType.clients "ClientID" "client_id" (by decide)

/-- C6 counterexample: the claim computes the edit-distance denominator from
    the lengths of the *original* strings; the code uses the lengths of the
    *normalized* strings.  For `a = "a!!"`, `b = "b"` the code returns 0 while
    the claimed formula gives `1 - 1/max(3,1) = 2/3`. -/
theorem c6_similarity_counterexample :
    calculateSimilarity "a!!" "b" = 0 ∧
    (1 : ℚ) - (levDist (normalizeStr "a!!").data (normalizeStr "b").data : ℚ) /
        ((max (String.length "a!!") (String.length "b") : ℕ) : ℚ) = 2/3 ∧
    calculateSimilarity "a!!" "b" ≠
      1 - (levDist (normalizeStr "a!!").data (normalizeStr "b").data : ℚ) /
        ((max (String.length "a!!") (String.length "b") : ℕ) : ℚ) :=
  ⟨by decide, by decide, by decide⟩

/-- C6 (amended): `similarity` lies in [0,1]; it is 1 exactly on the
    normalized-equality branch (including both-empty), 0.8 on the containment
    branch, and otherwise `1 - levenshtein/max` where the denominator is the
    maximum of the *normalized* lengths. -/
theorem c6_similarity_amended (a b : String) :
    (0 ≤ calculateSimilarity a b ∧ calculateSimilarity a b ≤ 1) ∧
    (normalizeStr a = normalizeStr b → calculateSimilarity a b = 1) ∧
    (normalizeStr a ≠ normalizeStr b →
      (jsIncludes (normalizeStr a) (normalizeStr b) ||
        jsIncludes (normalizeStr b) (normalizeStr a)) = true →
      calculateSimilarity a b = 8/10) ∧
    (normalizeStr a ≠ normalizeStr b →
      (jsIncludes (normalizeStr a) (normalizeStr b) ||
        jsIncludes (normalizeStr b) (normalizeStr a)) = false →
      calculateSimilarity a b =
        1 - (levDist (normalizeStr a).data (normalizeStr b).data : ℚ) /
          ((max (normalizeStr a).length (normalizeStr b).length : ℕ) : ℚ)) := by
  refine ⟨⟨calculateSimilarity_nonneg a b, calculateSimilarity_le_one a b⟩,
    calculateSimilarity_of_norm_eq a b, ?_, ?_⟩
  · intro hne hinc
    rw [calculateSimilarity, if_neg hne, if_pos hinc]
  · intro hne hinc
    rw [calculateSimilarity, if_neg hne, if_neg (by rw [hinc]; exact Bool.false_ne_true)]

theorem c6_similarity_amended_witness :
    (0 ≤ calculateSimilarity "Priority Level" "priority_level" ∧
      calculateSimilarity "Priority Level" "priority_level" ≤ 1) ∧
    calculateSimilarity "Priority Level" "priority_level" = 1 :=
  ⟨(c6_similarity_amended "Priority Level" "priority_level").1,
   (c6_similarity_amended "Priority Level" "priority_level").2.1 (by decide)⟩

/-- C10 counterexample: `"capacity"` and `"Capacity"` both exactly match (after
    normalization) the alternative `'capacity'` of `MaxLoadPerPhase`, yet
    `mapHeaders` assigns `MaxLoadPerPhase` the *first* of them: the later one
    is already claimed by the earlier canonical field `AvailableSlots`, whose
    alternatives also contain `'capacity'`. -/
theorem c10_last_exact_counterexample :
    (("MaxLoadPerPhase", ["max_load_per_phase", "max_load", "capacity", "workload_limit"]) ∈
        HEADER_MAPPINGS DataType.workers) ∧
    ["max_load_per_phase", "max_load", "capacity", "workload_limit"].contains
        (normalizeStr "capacity") = true ∧
    ["max_load_per_phase", "max_load", "capacity", "workload_limit"].contains
        (normalizeStr "Capacity") = true ∧
    ("MaxLoadPerPhase", "capacity") ∈ mapHeaders ["capacity", "Capacity"] DataType.workers ∧
    ("MaxLoadPerPhase", "Capacity") ∉ mapHeaders ["capacity", "Capacity"] DataType.workers :=
  ⟨by decide, by decide, by decide, by decide, by decide⟩

/-- C10 (amended): within the scan for a single canonical field, the *last*
    still-unclaimed header that exactly matches an alternative after
    normalization wins, with score 1, and no later fuzzy score can displace it
    (fuzzy updates require strictly beating the current best and similarity
    never exceeds 1).  Headers already claimed by an earlier canonical field
    are excluded from the scan, so across fields the last exact matcher can
    lose to an earlier one (see the counterexample). -/
theorem c10_last_exact_amended (alts used headers : List String) (g : String)
    (hg : (headers.filter
      (fun h => !(used.contains h) && alts.contains (normalizeStr h))).getLast? = some g) :
    pickHeader alts used headers = (g, 1) :=
  pickGo_direct_last alts used headers g hg ("", 0)

theorem c10_last_exact_amended_witness :
    pickHeader ["max_load_per_phase", "max_load", "capacity", "workload_limit"] []
      ["capacity", "Capacity"] = ("Capacity", 1) :=
  c10_last_exact_amended ["max_load_per_phase", "max_load", "capacity", "workload_limit"] []
    ["capacity", "Capacity"] "Capacity" (by decide)


/-! ### Claim theorems: value coercion -/

/-- C2 counterexample: `PreferredPhases` matches the list branch
    (`fieldName.includes('Phases')`, checked first), so its pieces stay
    strings — they are not parsed as integers. -/
theorem c2_phases_counterexample :
    convertValue (some "1,2,3") "PreferredPhases" = .vArr [.vStr "1", .vStr "2", .vStr "3"] ∧
    convertValue (some "1,2,3") "PreferredPhases" ≠ .vArr [.vNum 1, .vNum 2, .vNum 3] := by
  constructor
  · rfl
  · intro h
    rw [show convertValue (some "1,2,3") "PreferredPhases" =
        JsValue.vArr [.vStr "1", .vStr "2", .vStr "3"] from rfl] at h
    simp at h

/-- C2 (amended): only the `'Slots'` fields (such as `AvailableSlots`) get the
    integer treatment: for a non-empty value that is either not
    bracket-delimited or whose bracketed text fails the strict JSON parse, the
    result is the comma-split pieces parsed with `parseInt`, non-numeric pieces
    silently dropped — a sequence of integers.  (`PreferredPhases` instead hits
    the generic list branch and keeps its pieces as strings.) -/
theorem c2_slots_amended (fieldName v : String)
    (hL : fieldIsList fieldName = false)
    (hJ : (jsIncludes fieldName "JSON" || jsIncludes fieldName "Attributes") = false)
    (hN : (jsIncludes fieldName "Level" || jsIncludes fieldName "Duration" ||
           jsIncludes fieldName "Load" || jsIncludes fieldName "Concurrent") = false)
    (hS : jsIncludes fieldName "Slots" = true)
    (hv : v ≠ "")
    (hp : strStartsWith (strTrim v) "[" = true → strEndsWith (strTrim v) "]" = true →
      jsonParse (strTrim v) = none) :
    convertValue (some v) fieldName =
      .vArr (((if strStartsWith (strTrim v) "[" ∧ strEndsWith (strTrim v) "]"
               then strSplit (jsSliceInner (strTrim v)) ','
               else strSplit (strTrim v) ',').filterMap
          (fun p => jsParseInt (strTrim p))).map (fun n => .vNum (n : ℚ))) := by
  rw [convertValue]
  rw [if_neg (by simp [hv]), if_neg (by rw [hL]; exact Bool.false_ne_true),
      if_neg (by rw [hJ]; exact Bool.false_ne_true), if_neg (by rw [hN]; exact Bool.false_ne_true),
      if_pos hS]
  by_cases hb : strStartsWith (strTrim v) "[" ∧ strEndsWith (strTrim v) "]"
  · rw [if_pos hb, if_pos hb, hp hb.1 hb.2]
  · rw [if_neg hb, if_neg hb]

theorem c2_slots_amended_witness :
    convertValue (some "1,2,3") "AvailableSlots" = .vArr [.vNum 1, .vNum 2, .vNum 3] ∧
    convertValue (some "[1, 2, x]") "AvailableSlots" = .vArr [.vNum 1, .vNum 2] := by
  constructor
  · exact (c2_slots_amended "AvailableSlots" "1,2,3" (by decide) (by decide) (by decide)
      (by decide) (by decide) (fun h1 _ => absurd h1 (by decide))).trans (by rfl)
  · exact (c2_slots_amended "AvailableSlots" "[1, 2, x]" (by decide) (by decide) (by decide)
      (by decide) (by decide) (fun _ _ => rfl)).trans (by rfl)

/-- C9 counterexample: on a JSON parse failure the coercer returns the
    *trimmed* string (`String(value).trim()`), not the original raw value
    verbatim: a leading space is lost. -/
theorem c9_attributes_counterexample :
    convertValue (some " \x7bbad json") "AttributesJSON" = .vStr "\x7bbad json" ∧
    convertValue (some " \x7bbad json") "AttributesJSON" ≠ .vStr " \x7bbad json" := by
  constructor
  · rfl
  · intro h
    rw [show convertValue (some " \x7bbad json") "AttributesJSON" =
        JsValue.vStr "\x7bbad json" from rfl] at h
    simp at h

/-- C9 (amended): for every non-empty raw value of a metadata/attributes field
    (name containing 'JSON' or 'Attributes', not matching the list branch),
    a failed JSON parse returns the trimmed raw string — identical to the raw
    value whenever it has no surrounding whitespace — and no exception
    escapes (the parse failure is entirely absorbed). -/
theorem c9_attributes_amended (fieldName v : String)
    (hL : fieldIsList fieldName = false)
    (hJ : (jsIncludes fieldName "JSON" || jsIncludes fieldName "Attributes") = true)
    (hv : v ≠ "")
    (hp : jsonParse (strTrim v) = none) :
    convertValue (some v) fieldName = .vStr (strTrim v) := by
  rw [convertValue]
  rw [if_neg (by simp [hv]), if_neg (by rw [hL]; exact Bool.false_ne_true), if_pos hJ, hp]

theorem c9_attributes_amended_witness :
    convertValue (some "\x7bbad json") "AttributesJSON" = .vStr "\x7bbad json" :=
  (c9_attributes_amended "AttributesJSON" "\x7bbad json" (by decide) (by decide)
    (by decide) rfl).trans (by rfl)

/-! ### Claim theorems: the confidence formula -/

/-- The claim's (spec-side) notion: the number of rows with no associated
    error diagnostic.  This definition follows the spec's words, for
    comparison against the code's `validRows`. -/
def specRowsWithoutErrors (res : ValidationResult) : ℕ :=
  (List.range res.summary.totalRows).countP (fun i => !(res.errors.any (fun e => e.row == i)))

/-- The claim's (spec-side) confidence:
    `round(100 × (rows_without_errors / total_rows))`, 100 for an empty
    collection.  This definition follows the spec's words. -/
def specConfidence (res : ValidationResult) : ℤ :=
  if 0 < res.summary.totalRows then
    jsRound (100 * ((specRowsWithoutErrors res : ℚ) / (res.summary.totalRows : ℚ)))
  else 100

/-- C1 counterexample: the code computes
    `validRows = total_rows - (number of error diagnostics)`, not the number
    of rows without errors.  A single client row missing ClientID, ClientName
    and PriorityLevel carries three errors, so the code reports confidence
    `round((1-3)/1 × 100) = -200`, while the claimed formula gives 0. -/
theorem c1_confidence_counterexample :
    (validate (.clients [Client.mk none none none none none none]) none).confidence = -200 ∧
    specConfidence (validate (.clients [Client.mk none none none none none none]) none) = 0 ∧
    (validate (.clients [Client.mk none none none none none none]) none).confidence ≠
      specConfidence (validate (.clients [Client.mk none none none none none none]) none) :=
  ⟨by decide, by decide, by decide⟩

/-- A 10-row client collection in which exactly 3 rows carry exactly one error
    each (an out-of-range PriorityLevel) and the other 7 rows are clean. -/
def c1TenRows : List Client :=
  [Client.mk (some "C1") (some "Acme") (some 3) none none none,
   Client.mk (some "C2") (some "Acme") (some 3) none none none,
   Client.mk (some "C3") (some "Acme") (some 3) none none none,
   Client.mk (some "C4") (some "Acme") (some 3) none none none,
   Client.mk (some "C5") (some "Acme") (some 3) none none none,
   Client.mk (some "C6") (some "Acme") (some 3) none none none,
   Client.mk (some "C7") (some "Acme") (some 3) none none none,
   Client.mk (some "P1") (some "Acme") (some 7) none none none,
   Client.mk (some "P2") (some "Acme") (some 7) none none none,
   Client.mk (some "P3") (some "Acme") (some 7) none none none]

/-- C1 (amended): the returned confidence is
    `round(100 × (total_rows − error_count) / total_rows)` (100 for an empty
    collection), where `error_count` counts error diagnostics, not erroneous
    rows.  This agrees with the claimed rows-without-errors formula exactly
    when no row carries more than one error — in particular the claimed
    10-row example with three single-error rows does yield 70. -/
theorem c1_confidence_amended :
    (∀ (data : EntityData) (allData : Option AllData),
      (validate data allData).confidence =
        if 0 < dataLen data then
          jsRound (((((dataLen data : ℤ) -
            (((validate data allData).errors.filter (fun e => e.type = "error")).length : ℤ) : ℤ) : ℚ) /
            (dataLen data : ℚ)) * 100)
        else 100) ∧
    (validate (.clients c1TenRows) none).confidence = 70 := by
  constructor
  · intro data allData
    cases data <;> cases allData <;> rfl
  · decide

/-! ### Claim theorems: priority range and auto-fix -/

lemma validateClientsGo_mem :
    ∀ (cs : List Client) (i0 : ℕ) (seen : List String) (k : ℕ) (hk : k < cs.length)
      (e : ValidationError),
      (∀ s, e ∈ (clientRowDiags (i0 + k) (cs.get ⟨k, hk⟩) s).1) →
      e ∈ (validateClientsGo cs i0 seen).1 := by
  intro cs
  induction cs with
  | nil => intro i0 seen k hk; simp at hk
  | cons c rest ih =>
    intro i0 seen k hk e he
    rw [validateClientsGo]
    match k with
    | 0 =>
      apply List.mem_append_left
      simpa using he seen
    | k + 1 =>
      apply List.mem_append_right
      have hk' : k < rest.length := by simpa using Nat.lt_of_succ_lt_succ hk
      apply ih (i0 + 1) _ k hk'
      intro s
      have := he s
      simpa [Nat.add_assoc, Nat.add_comm, Nat.add_left_comm] using this

/-- C3: a client whose `PriorityLevel` lies outside [1, 5] always receives the
    range error on its own row, and `generateAutoFix` on that error returns
    the value rounded (JS `Math.round`) and clamped into [1, 5]. -/
theorem c3_priority_range_autofix (clients : List Client) (i : ℕ) (hi : i < clients.length)
    (v : ℚ) (hv : (clients.get ⟨i, hi⟩).PriorityLevel = some v) (hrange : v < 1 ∨ v > 5)
    (allData : Option AllData) :
    ∃ e ∈ (validate (.clients clients) allData).errors,
      e.row = i ∧ e.column = "PriorityLevel" ∧
      e.message = "PriorityLevel must be between 1 and 5" ∧ e.value = .vNum v ∧
      generateAutoFix e = .vNum ((max 1 (min 5 (jsRound v)) : ℤ) : ℚ) := by
  refine ⟨addErr .clients i "PriorityLevel" "PriorityLevel must be between 1 and 5" (.vNum v)
    (some "Use a value between 1 (lowest) and 5 (highest)"), ?_, rfl, rfl, rfl, rfl, rfl⟩
  have hpiece : clientPriorityRangeErr i (clients.get ⟨i, hi⟩) =
      [addErr .clients i "PriorityLevel" "PriorityLevel must be between 1 and 5" (.vNum v)
        (some "Use a value between 1 (lowest) and 5 (highest)")] := by
    unfold clientPriorityRangeErr
    rw [hv]
    exact if_pos hrange
  have hrow : ∀ s, addErr .clients i "PriorityLevel" "PriorityLevel must be between 1 and 5"
      (.vNum v) (some "Use a value between 1 (lowest) and 5 (highest)") ∈
      (clientRowDiags i (clients.get ⟨i, hi⟩) s).1 := by
    intro s
    rw [clientRowDiags]
    simp only [List.get_eq_getElem] at hpiece
    simp [hpiece]
  have hmem := validateClientsGo_mem clients 0 [] i hi _ (by simpa using hrow)
  cases allData with
  | none => exact List.mem_append_left _ hmem
  | some ad => exact List.mem_append_left _ hmem

theorem c3_priority_range_autofix_witness :
    (∃ e ∈ (validate (.clients [Client.mk (some "C1") (some "Acme") (some 7) none none none])
        none).errors,
      e.row = 0 ∧ e.column = "PriorityLevel" ∧
      e.message = "PriorityLevel must be between 1 and 5" ∧ e.value = .vNum 7 ∧
      generateAutoFix e = .vNum 5) ∧
    (∃ e ∈ (validate (.clients [Client.mk (some "C1") (some "Acme") (some (-3)) none none none])
        none).errors,
      e.row = 0 ∧ e.column = "PriorityLevel" ∧
      e.message = "PriorityLevel must be between 1 and 5" ∧ e.value = .vNum (-3) ∧
      generateAutoFix e = .vNum 1) := by
  constructor
  · obtain ⟨e, he, h1, h2, h3, h4, h5⟩ :=
      c3_priority_range_autofix [Client.mk (some "C1") (some "Acme") (some 7) none none none]
        0 (by decide) 7 rfl (by norm_num) none
    have hc : JsValue.vNum ((max 1 (min 5 (jsRound (7 : ℚ))) : ℤ) : ℚ) = JsValue.vNum 5 := by
      have hj : jsRound (7 : ℚ) = 7 := by norm_num [jsRound]
      rw [hj]; norm_num
    exact ⟨e, he, h1, h2, h3, h4, h5.trans hc⟩
  · obtain ⟨e, he, h1, h2, h3, h4, h5⟩ :=
      c3_priority_range_autofix [Client.mk (some "C1") (some "Acme") (some (-3)) none none none]
        0 (by decide) (-3) rfl (by norm_num) none
    have hc : JsValue.vNum ((max 1 (min 5 (jsRound (-3 : ℚ))) : ℤ) : ℚ) = JsValue.vNum 1 := by
      have hj : jsRound (-3 : ℚ) = -3 := by norm_num [jsRound]
      rw [hj]; norm_num
    exact ⟨e, he, h1, h2, h3, h4, h5.trans hc⟩

/-! ### Claim theorems: cross-entity reference check -/

lemma crossClientsGo_append (tasks : List TaskRow) :
    ∀ (xs ys : List Client) (i0 : ℕ),
      crossClientsGo tasks (xs ++ ys) i0 =
        crossClientsGo tasks xs i0 ++ crossClientsGo tasks ys (i0 + xs.length) := by
  intro xs
  induction xs with
  | nil => intro ys i0; simp [crossClientsGo]
  | cons c rest ih =>
    intro ys i0
    rw [List.cons_append, crossClientsGo, crossClientsGo, ih ys (i0 + 1)]
    simp [List.append_assoc, Nat.add_assoc, Nat.add_comm, Nat.add_left_comm]

lemma crossClientsGo_row_bounds (tasks : List TaskRow) :
    ∀ (cs : List Client) (i0 : ℕ) (e : ValidationError), e ∈ crossClientsGo tasks cs i0 →
      i0 ≤ e.row ∧ e.row < i0 + cs.length := by
  intro cs
  induction cs with
  | nil => intro i0 e he; simp [crossClientsGo] at he
  | cons c rest ih =>
    intro i0 e he
    rw [crossClientsGo] at he
    rcases List.mem_append.mp he with h1 | h2
    · have : e.row = i0 := by
        rcases hr : c.RequestedTaskIDs with _ | v
        · rw [hr] at h1; simp at h1
        · rw [hr] at h1
          match v with
          | .vNull | .vBool _ | .vNum _ | .vStr _ | .vObj _ => simp at h1
          | .vArr ids =>
            simp only at h1
            split at h1
            · have he1 : e = addErr .clients i0 "RequestedTaskIDs"
                  ("Referenced task IDs not found: " ++
                    jsJoin ", " (ids.filter (fun tid => !(taskIdsHas tasks tid))))
                  (.vArr (ids.filter (fun tid => !(taskIdsHas tasks tid)))) none := by
                simpa using h1
              rw [he1]
              rfl
            · simp at h1
      simp [this]
    · have := ih (i0 + 1) e h2
      simp only [List.length_cons]
      omega

/-- C7: in the cross-entity pass, a client row whose `RequestedTaskIDs` is an
    array receives exactly one error on that row when some ids resolve to no
    task (and none otherwise); that single error carries the whole batch of
    unresolved ids as its value and lists them all, comma-joined, in its
    message. -/
theorem c7_unresolved_ids_single_error (l1 l2 : List Client) (c : Client)
    (workers : List Worker) (tasks : List TaskRow) (ids : List JsValue)
    (hreq : c.RequestedTaskIDs = some (.vArr ids)) :
    ((validateCrossReferences (AllData.mk (l1 ++ c :: l2) workers tasks)).1.filter
        (fun e => e.entity == DataType.clients && e.row == l1.length)).length =
      (if (ids.filter (fun tid => !(taskIdsHas tasks tid))).isEmpty then 0 else 1) ∧
    ∀ e ∈ (validateCrossReferences (AllData.mk (l1 ++ c :: l2) workers tasks)).1.filter
        (fun e => e.entity == DataType.clients && e.row == l1.length),
      e.column = "RequestedTaskIDs" ∧
      e.value = .vArr (ids.filter (fun tid => !(taskIdsHas tasks tid))) ∧
      e.message = "Referenced task IDs not found: " ++
        jsJoin ", " (ids.filter (fun tid => !(taskIdsHas tasks tid))) := by
  have hcross : (validateCrossReferences (AllData.mk (l1 ++ c :: l2) workers tasks)).1 =
      crossClientsGo tasks (l1 ++ c :: l2) 0 := rfl
  have hsplit : crossClientsGo tasks (l1 ++ c :: l2) 0 =
      crossClientsGo tasks l1 0 ++
        ((match c.RequestedTaskIDs with
          | some (.vArr ids) =>
            let invalidTaskIds := ids.filter (fun tid => !(taskIdsHas tasks tid))
            if invalidTaskIds.length > 0 then
              [addErr .clients l1.length "RequestedTaskIDs"
                 ("Referenced task IDs not found: " ++ jsJoin ", " invalidTaskIds)
                 (.vArr invalidTaskIds) none]
            else []
          | _ => []) ++ crossClientsGo tasks l2 (l1.length + 1)) := by
    rw [crossClientsGo_append tasks l1 (c :: l2) 0, crossClientsGo]
    simp
  have hleft : (crossClientsGo tasks l1 0).filter
      (fun e => e.entity == DataType.clients && e.row == l1.length) = [] := by
    apply List.filter_eq_nil_iff.mpr
    intro e he
    have := crossClientsGo_row_bounds tasks l1 0 e he
    simp only [Bool.and_eq_true, beq_iff_eq, not_and]
    intro _
    omega
  have hright : (crossClientsGo tasks l2 (l1.length + 1)).filter
      (fun e => e.entity == DataType.clients && e.row == l1.length) = [] := by
    apply List.filter_eq_nil_iff.mpr
    intro e he
    have := crossClientsGo_row_bounds tasks l2 (l1.length + 1) e he
    simp only [Bool.and_eq_true, beq_iff_eq, not_and]
    intro _
    omega
  rw [hcross, hsplit, hreq]
  by_cases hinv : (ids.filter (fun tid => !(taskIdsHas tasks tid))).isEmpty = true
  · have hlen0 : ¬((ids.filter (fun tid => !(taskIdsHas tasks tid))).length > 0) := by
      rw [List.isEmpty_iff] at hinv
      simp [hinv]
    simp only [List.filter_append, hleft, hright, if_neg hlen0]
    constructor
    · simp [hinv]
    · intro e he
      simp at he
  · have hlen1 : (ids.filter (fun tid => !(taskIdsHas tasks tid))).length > 0 := by
      rcases hfe : ids.filter (fun tid => !(taskIdsHas tasks tid)) with _ | ⟨x, xs⟩
      · rw [hfe] at hinv; simp at hinv
      · simp [hfe]
    simp only [List.filter_append, hleft, hright, if_pos hlen1]
    have hpred : (fun e => e.entity == DataType.clients && e.row == l1.length)
        (addErr .clients l1.length "RequestedTaskIDs"
          ("Referenced task IDs not found: " ++
            jsJoin ", " (ids.filter (fun tid => !(taskIdsHas tasks tid))))
          (.vArr (ids.filter (fun tid => !(taskIdsHas tasks tid)))) none) = true := by
      simp [addErr]
    constructor
    · simp [List.filter_cons, hpred, hinv]
    · intro e he
      simp only [List.nil_append, List.append_nil, List.filter_cons, hpred, if_pos] at he
      have he2 : e = addErr .clients l1.length "RequestedTaskIDs"
          ("Referenced task IDs not found: " ++
            jsJoin ", " (ids.filter (fun tid => !(taskIdsHas tasks tid))))
          (.vArr (ids.filter (fun tid => !(taskIdsHas tasks tid)))) none := by
        simpa using he
      rw [he2]
      exact ⟨rfl, rfl, rfl⟩

theorem c7_unresolved_ids_single_error_witness :
    ((validateCrossReferences (AllData.mk
        [Client.mk (some "C1") (some "Acme") (some 3) (some (.vArr [.vStr "T9"])) none none]
        [] [])).1.filter
      (fun e => e.entity == DataType.clients && e.row == 0)).length = 1 ∧
    ∀ e ∈ (validateCrossReferences (AllData.mk
        [Client.mk (some "C1") (some "Acme") (some 3) (some (.vArr [.vStr "T9"])) none none]
        [] [])).1.filter
      (fun e => e.entity == DataType.clients && e.row == 0),
      e.column = "RequestedTaskIDs" ∧ e.value = .vArr [.vStr "T9"] ∧
      e.message = "Referenced task IDs not found: T9" := by
  have h := c7_unresolved_ids_single_error []
    [] (Client.mk (some "C1") (some "Acme") (some 3) (some (.vArr [.vStr "T9"])) none none)
    [] [] [.vStr "T9"] rfl
  constructor
  · exact h.1.trans (by rfl)
  · intro e he
    have h2 := h.2 e he
    exact ⟨h2.1, h2.2.1.trans (by rfl), h2.2.2.trans (by rfl)⟩

/-! ### Claim theorems: duplicate identifiers -/

lemma contains_append_single (l : List String) (a b : String) :
    (l ++ [b]).contains a = (l.contains a || (b == a)) := by
  by_cases h : a = b
  · simp [h, List.contains, List.elem_eq_mem]
  · simp [List.contains, List.elem_eq_mem, h, Ne.symm h]

/-- The seen-identifier set accumulated by the `validateClients` loop after
    processing a prefix of rows. -/
def seenAfter (xs : List Client) (seen : List String) : List String :=
  xs.foldl (fun acc c =>
    match c.ClientID with
    | some s => if s ≠ "" then acc ++ [s] else acc
    | none => acc) seen

lemma seenAfter_nil (seen : List String) : seenAfter [] seen = seen := rfl

lemma seenAfter_cons (c : Client) (xs : List Client) (seen : List String) :
    seenAfter (c :: xs) seen = seenAfter xs
      (match c.ClientID with
       | some s => if s ≠ "" then seen ++ [s] else seen
       | none => seen) := rfl

lemma validateClientsGo_append :
    ∀ (xs ys : List Client) (i0 : ℕ) (seen : List String),
      (validateClientsGo (xs ++ ys) i0 seen).1 =
        (validateClientsGo xs i0 seen).1 ++
          (validateClientsGo ys (i0 + xs.length) (seenAfter xs seen)).1 := by
  intro xs
  induction xs with
  | nil => intro ys i0 seen; simp [validateClientsGo, seenAfter_nil]
  | cons c rest ih =>
    intro ys i0 seen
    rw [List.cons_append, validateClientsGo, validateClientsGo]
    simp only [ih, seenAfter_cons, List.length_cons, List.append_assoc]
    have : i0 + (rest.length + 1) = i0 + 1 + rest.length := by omega
    rw [this]

lemma ne_dupMsg_of_head (t : String) (h : t.data.head? ≠ some 'D') (s : String) :
    (t == ("Duplicate ClientID: " ++ s)) = false := by
  rw [beq_eq_false_iff_ne]
  intro hc
  apply h
  rw [hc]
  rfl

lemma dup_beq_msg (t s : String) :
    (("Duplicate ClientID: " ++ t) == ("Duplicate ClientID: " ++ s)) = (t == s) := by
  by_cases h : t = s
  · simp [h]
  · have hne : ("Duplicate ClientID: " ++ t) ≠ ("Duplicate ClientID: " ++ s) := by
      intro hc
      apply h
      have hd := congrArg String.data hc
      have hd2 : "Duplicate ClientID: ".data ++ t.data =
          "Duplicate ClientID: ".data ++ s.data := hd
      exact String.ext (List.append_cancel_left hd2)
    rw [beq_eq_false_iff_ne.mpr hne, beq_eq_false_iff_ne.mpr h]

lemma filter_dup_of_heads (s : String) (l : List ValidationError)
    (h : ∀ e ∈ l, e.message.data.head? ≠ some 'D') :
    l.filter (fun e => e.message == "Duplicate ClientID: " ++ s) = [] := by
  apply List.filter_eq_nil_iff.mpr
  intro e he hp
  have hmsg : e.message = "Duplicate ClientID: " ++ s := eq_of_beq hp
  apply h e he
  rw [hmsg]
  rfl

lemma heads_clientMissingIdErr (i : ℕ) (c : Client) :
    ∀ e ∈ clientMissingIdErr i c, e.message.data.head? ≠ some 'D' := by
  intro e he
  rw [clientMissingIdErr] at he
  split at he
  · simp at he
  · rw [List.mem_singleton] at he
    subst he
    simp only [addErr]
    decide

lemma heads_clientMissingNameErr (i : ℕ) (c : Client) :
    ∀ e ∈ clientMissingNameErr i c, e.message.data.head? ≠ some 'D' := by
  intro e he
  rw [clientMissingNameErr] at he
  split at he
  · simp at he
  · rw [List.mem_singleton] at he
    subst he
    simp only [addErr]
    decide

lemma heads_clientMissingPriorityErr (i : ℕ) (c : Client) :
    ∀ e ∈ clientMissingPriorityErr i c, e.message.data.head? ≠ some 'D' := by
  intro e he
  rw [clientMissingPriorityErr] at he
  rcases hp : c.PriorityLevel with _ | v
  · simp only [hp] at he
    rw [List.mem_singleton] at he
    subst he
    simp only [addErr]
    decide
  · simp only [hp] at he
    simp at he

lemma heads_clientPriorityRangeErr (i : ℕ) (c : Client) :
    ∀ e ∈ clientPriorityRangeErr i c, e.message.data.head? ≠ some 'D' := by
  intro e he
  rw [clientPriorityRangeErr] at he
  rcases hp : c.PriorityLevel with _ | v
  · simp only [hp] at he
    simp at he
  · simp only [hp] at he
    split at he
    · rw [List.mem_singleton] at he
      subst he
      simp only [addErr]
      decide
    · simp at he

lemma heads_clientReqTaskErrs (i : ℕ) (c : Client) :
    ∀ e ∈ (clientReqTaskDiags i c).1, e.message.data.head? ≠ some 'D' := by
  intro e he
  rw [clientReqTaskDiags] at he
  rcases hr : c.RequestedTaskIDs with _ | v
  · simp only [hr] at he
    simp at he
  · simp only [hr] at he
    cases v with
    | vNull => simp [jsTruthy] at he
    | vBool b =>
      rcases b with _ | _
      · simp [jsTruthy] at he
      · simp only [jsTruthy, if_pos] at he
        rw [List.mem_singleton] at he
        subst he
        simp only [addErr]
        decide
    | vNum q =>
      by_cases hq : jsTruthy (JsValue.vNum q) = true
      · simp only [if_pos hq] at he
        rw [List.mem_singleton] at he
        subst he
        simp only [addErr]
        decide
      · simp only [if_neg hq] at he
        simp at he
    | vStr s2 =>
      by_cases hq : jsTruthy (JsValue.vStr s2) = true
      · simp only [if_pos hq] at he
        rw [List.mem_singleton] at he
        subst he
        simp only [addErr]
        decide
      · simp only [if_neg hq] at he
        simp at he
    | vObj kvs =>
      simp only [jsTruthy, if_pos] at he
      rw [List.mem_singleton] at he
      subst he
      simp only [addErr]
      decide
    | vArr ids =>
      simp only [jsTruthy, if_pos] at he
      split at he <;> simp at he

lemma heads_clientAttrJsonErr (i : ℕ) (c : Client) :
    ∀ e ∈ clientAttrJsonErr i c, e.message.data.head? ≠ some 'D' := by
  intro e he
  rcases ha : c.AttributesJSON with _ | v
  · rw [show clientAttrJsonErr i c = [] from by rw [clientAttrJsonErr, ha]] at he
    simp at he
  · cases v with
    | vNull | vBool b | vNum q | vArr xs | vObj kvs =>
      rw [show clientAttrJsonErr i c = [] from by rw [clientAttrJsonErr, ha]] at he
      simp at he
    | vStr s2 =>
      rw [show clientAttrJsonErr i c =
          (if s2 ≠ "" then
            (match jsonParse s2 with
             | some _ => []
             | none => [addErr .clients i "AttributesJSON"
                 "Invalid JSON format in AttributesJSON" (.vStr s2)
                 (some "Ensure proper JSON syntax with quotes around keys and values")])
           else []) from by rw [clientAttrJsonErr, ha]] at he
      split at he
      · rcases hj : jsonParse s2 with _ | j
        · simp only [hj] at he
          rw [List.mem_singleton] at he
          subst he
          simp only [addErr]
          decide
        · simp only [hj] at he
          simp at he
      · simp at he

lemma filter_dup_clientDupIdErr (s : String) (hs : s ≠ "") (i : ℕ) (c : Client)
    (seen : List String) :
    (clientDupIdErr i c seen).filter (fun e => e.message == "Duplicate ClientID: " ++ s) =
      if c.ClientID = some s ∧ seen.contains s = true then
        [addErr .clients i "ClientID" ("Duplicate ClientID: " ++ s) (.vStr s)
           (some "Consider adding a suffix or using a unique identifier")]
      else [] := by
  rcases hc : c.ClientID with _ | t
  · rw [show clientDupIdErr i c seen = [] from by rw [clientDupIdErr, hc]]
    rw [if_neg (by simp)]
    rfl
  · rw [show clientDupIdErr i c seen =
        (if t ≠ "" ∧ seen.contains t then
          [addErr .clients i "ClientID" ("Duplicate ClientID: " ++ t) (.vStr t)
             (some "Consider adding a suffix or using a unique identifier")]
         else []) from by rw [clientDupIdErr, hc]]
    by_cases hcond : t ≠ "" ∧ seen.contains t = true
    · rw [if_pos (by exact ⟨hcond.1, by simpa using hcond.2⟩)]
      by_cases hts : t = s
      · subst hts
        rw [if_pos (by exact ⟨rfl, hcond.2⟩)]
        simp [List.filter_cons, addErr]
      · rw [if_neg (by simp [hts])]
        simp only [List.filter_cons, List.filter_nil]
        rw [show ((addErr .clients i "ClientID" ("Duplicate ClientID: " ++ t) (.vStr t)
          (some "Consider adding a suffix or using a unique identifier")).message ==
            "Duplicate ClientID: " ++ s) = false from
          (dup_beq_msg t s).trans (beq_eq_false_iff_ne.mpr hts)]
        simp
    · rw [if_neg (by simpa using hcond)]
      rw [if_neg]
      · rfl
      · intro hcon
        apply hcond
        have ht2 : t = s := by simpa using hcon.1
        subst ht2
        exact ⟨hs, hcon.2⟩

lemma filter_dup_row (s : String) (hs : s ≠ "") (i : ℕ) (c : Client) (seen : List String) :
    (clientRowDiags i c seen).1.filter (fun e => e.message == "Duplicate ClientID: " ++ s) =
      if c.ClientID = some s ∧ seen.contains s = true then
        [addErr .clients i "ClientID" ("Duplicate ClientID: " ++ s) (.vStr s)
           (some "Consider adding a suffix or using a unique identifier")]
      else [] := by
  rw [clientRowDiags]
  simp only [List.filter_append]
  rw [filter_dup_of_heads s _ (heads_clientMissingIdErr i c),
      filter_dup_of_heads s _ (heads_clientMissingNameErr i c),
      filter_dup_of_heads s _ (heads_clientMissingPriorityErr i c),
      filter_dup_of_heads s _ (heads_clientPriorityRangeErr i c),
      filter_dup_of_heads s _ (heads_clientReqTaskErrs i c),
      filter_dup_of_heads s _ (heads_clientAttrJsonErr i c),
      filter_dup_clientDupIdErr s hs i c seen]
  simp

lemma filter_dup_go_zero (s : String) (hs : s ≠ "") :
    ∀ (cs : List Client) (i0 : ℕ) (seen : List String),
      (∀ c ∈ cs, c.ClientID ≠ some s) →
      (validateClientsGo cs i0 seen).1.filter
        (fun e => e.message == "Duplicate ClientID: " ++ s) = [] := by
  intro cs
  induction cs with
  | nil => intro i0 seen _; rfl
  | cons c rest ih =>
    intro i0 seen hall
    rw [validateClientsGo]
    simp only [List.filter_append]
    rw [filter_dup_row s hs i0 c seen,
        if_neg (by intro hcon; exact hall c (by simp) hcon.1)]
    rw [ih (i0 + 1) _ (fun x hx => hall x (List.mem_cons_of_mem c hx))]
    rfl

lemma seenAfter_contains_eq (s : String) :
    ∀ (xs : List Client) (seen : List String), (∀ c ∈ xs, c.ClientID ≠ some s) →
      (seenAfter xs seen).contains s = seen.contains s := by
  intro xs
  induction xs with
  | nil => intro seen _; rfl
  | cons c rest ih =>
    intro seen hall
    rw [seenAfter_cons]
    rcases hc : c.ClientID with _ | t
    · simp only [hc]
      exact ih seen (fun x hx => hall x (List.mem_cons_of_mem c hx))
    · simp only [hc]
      by_cases ht : t ≠ ""
      · rw [if_pos ht, ih _ (fun x hx => hall x (List.mem_cons_of_mem c hx)),
            contains_append_single]
        have hts : t ≠ s := by
          intro hcon
          exact hall c (by simp) (by rw [hc, hcon])
        rw [beq_eq_false_iff_ne.mpr hts]
        simp
      · rw [if_neg ht]
        exact ih seen (fun x hx => hall x (List.mem_cons_of_mem c hx))

lemma seenAfter_contains_mono (s : String) :
    ∀ (xs : List Client) (seen : List String), seen.contains s = true →
      (seenAfter xs seen).contains s = true := by
  intro xs
  induction xs with
  | nil => intro seen h; exact h
  | cons c rest ih =>
    intro seen h
    rw [seenAfter_cons]
    rcases hc : c.ClientID with _ | t
    · simp only [hc]
      exact ih seen h
    · simp only [hc]
      by_cases ht : t ≠ ""
      · rw [if_pos ht]
        apply ih
        rw [contains_append_single, h]
        rfl
      · rw [if_neg ht]
        exact ih seen h

/-- C8: when exactly two records of a client collection share the same
    non-empty ClientID (rows `l1.length` and `l1.length + 1 + l2.length`),
    the duplicate-identifier errors for that value are exactly one error,
    located at the second occurrence's row index, on column ClientID, naming
    the duplicated value; the first occurrence is not flagged, and the summary
    still counts every record of the collection. -/
theorem c8_duplicate_single_error (l1 l2 l3 : List Client) (ca cb : Client) (s : String)
    (hs : s ≠ "") (ha : ca.ClientID = some s) (hb : cb.ClientID = some s)
    (h1 : ∀ c ∈ l1, c.ClientID ≠ some s) (h2 : ∀ c ∈ l2, c.ClientID ≠ some s)
    (h3 : ∀ c ∈ l3, c.ClientID ≠ some s) :
    ((validate (.clients (l1 ++ ca :: (l2 ++ cb :: l3))) none).errors.filter
        (fun e => e.message == "Duplicate ClientID: " ++ s)) =
      [addErr .clients (l1.length + 1 + l2.length) "ClientID" ("Duplicate ClientID: " ++ s)
         (.vStr s) (some "Consider adding a suffix or using a unique identifier")] ∧
    (validate (.clients (l1 ++ ca :: (l2 ++ cb :: l3))) none).summary.totalRows =
      (l1 ++ ca :: (l2 ++ cb :: l3)).length := by
  constructor
  · have herr : (validate (.clients (l1 ++ ca :: (l2 ++ cb :: l3))) none).errors =
        (validateClientsGo (l1 ++ ca :: (l2 ++ cb :: l3)) 0 []).1 ++ [] := rfl
    have hgo1 : (validateClientsGo (ca :: (l2 ++ cb :: l3)) (0 + l1.length)
        (seenAfter l1 [])).1 =
        (clientRowDiags (0 + l1.length) ca (seenAfter l1 [])).1 ++
          (validateClientsGo (l2 ++ cb :: l3) (0 + l1.length + 1)
            (seenAfter l1 [] ++ [s])).1 := by
      rw [validateClientsGo, ha]
      simp [hs]
    have hgo2 : (validateClientsGo (cb :: l3) (0 + l1.length + 1 + l2.length)
        (seenAfter l2 (seenAfter l1 [] ++ [s]))).1 =
        (clientRowDiags (0 + l1.length + 1 + l2.length) cb
          (seenAfter l2 (seenAfter l1 [] ++ [s]))).1 ++
          (validateClientsGo l3 (0 + l1.length + 1 + l2.length + 1)
            (seenAfter l2 (seenAfter l1 [] ++ [s]) ++ [s])).1 := by
      rw [validateClientsGo, hb]
      simp [hs]
    rw [herr, List.append_nil,
        validateClientsGo_append l1 (ca :: (l2 ++ cb :: l3)) 0 [],
        hgo1,
        validateClientsGo_append l2 (cb :: l3) (0 + l1.length + 1) (seenAfter l1 [] ++ [s]),
        hgo2]
    simp only [List.filter_append]
    rw [filter_dup_go_zero s hs l1 0 [] h1,
        filter_dup_go_zero s hs l2 (0 + l1.length + 1) _ h2,
        filter_dup_go_zero s hs l3 _ _ h3,
        filter_dup_row s hs (0 + l1.length) ca (seenAfter l1 []),
        if_neg (by
          intro hcon
          have hcont := hcon.2
          rw [seenAfter_contains_eq s l1 [] h1] at hcont
          simp [List.contains] at hcont),
        filter_dup_row s hs (0 + l1.length + 1 + l2.length) cb
          (seenAfter l2 (seenAfter l1 [] ++ [s])),
        if_pos (by
          refine ⟨hb, ?_⟩
          apply seenAfter_contains_mono
          rw [contains_append_single]
          simp)]
    simp
  · rfl

theorem c8_duplicate_single_error_witness :
    ((validate (.clients
        [Client.mk (some "C1") (some "Acme") (some 3) none none none,
         Client.mk (some "C1") (some "Beta") (some 3) none none none]) none).errors.filter
      (fun e => e.message == "Duplicate ClientID: " ++ "C1")) =
      [addErr .clients 1 "ClientID" ("Duplicate ClientID: " ++ "C1") (.vStr "C1")
         (some "Consider adding a suffix or using a unique identifier")] ∧
    (validate (.clients
        [Client.mk (some "C1") (some "Acme") (some 3) none none none,
         Client.mk (some "C1") (some "Beta") (some 3) none none none]) none).summary.totalRows =
      2 := by
  have h := c8_duplicate_single_error [] []
    [] (Client.mk (some "C1") (some "Acme") (some 3) none none none)
    (Client.mk (some "C1") (some "Beta") (some 3) none none none) "C1"
    (by decide) rfl rfl (by simp) (by simp) (by simp)
  exact ⟨h.1, h.2⟩
